import Mathlib

/-!
# Verification of the Lexio-Online game engine

A shallow embedding of the game-state engine of the Lexio-Online server
(the latest server revision, `unnamed/part_003`; earlier near-duplicate
revisions exist, e.g. `src/server/index.js`), together with theorems that
settle the specification claims about it.

Modelling conventions:
* JavaScript arrays become `List`, numbers become `Nat`/`Int`/`ℚ` as
  appropriate, and card ids stay the strings the source builds.
* `Array.prototype.sort(cmp)` is required (since ES2019) to be a stable
  sort, so its result is uniquely determined by the comparator and the
  input order; we embed it as a structural stable insertion sort
  (`jsSortBy`), which the kernel can evaluate.
* JS object maps keyed by the card numbers iterate their integer-like keys
  in ascending numeric order; maps keyed by suit strings iterate in
  insertion (first-occurrence) order.  Both are embedded explicitly.
* `Math.random()` draws are abstracted as rational oracle arguments; each
  function that draws takes the successive draws it may consume.
* The per-room socket plumbing (broadcast loops, `setTimeout` chains, the
  `playerPlays` history with wall-clock timestamps, and the
  `aiExecutionState` re-entrancy latch) is transport bookkeeping outside
  the state transition itself and is not part of the state model; the
  sanitized view sent to each client is modelled by `sanitizeRoom`.
-/

namespace Lexio

/-- The four suits.  Constructor order is the declaration order of the
`SYMBOLS` object in the source (`sun, moon, star, cloud`), which is the
order `Object.keys` enumerates when the deck is built. -/
inductive Symbol
  | sun
  | moon
  | star
  | cloud
deriving DecidableEq, Repr

/-- `Object.keys(SYMBOLS)` enumeration order used by `createDeck`. -/
def symbolKeys : List Symbol := [Symbol.sun, Symbol.moon, Symbol.star, Symbol.cloud]

/-- `SYMBOL_ORDER = ['cloud', 'star', 'moon', 'sun']` (comparison order). -/
def SYMBOL_ORDER : List Symbol := [Symbol.cloud, Symbol.star, Symbol.moon, Symbol.sun]

/-- `NUMBER_ORDER = [3,4,5,6,7,8,9,10,11,12,13,14,15,1,2]`. -/
def NUMBER_ORDER : List Nat := [3, 4, 5, 6, 7, 8, 9, 10, 11, 12, 13, 14, 15, 1, 2]

/-- JS `Array.prototype.findIndex`, with `none` standing for its `-1`. -/
def jsFindIndex (p : α → Bool) : List α → Option Nat
  | [] => none
  | a :: l => if p a then some 0 else (jsFindIndex p l).map (· + 1)

/-- JS `Array.prototype.indexOf` (`-1` when the element is absent). -/
def jsIndexOf [BEq α] (l : List α) (a : α) : Int :=
  match jsFindIndex (fun x => x == a) l with
  | some i => (i : Int)
  | none => -1

/-- Insert for the stable sort below: `a` goes in front of the first
element `b` with `le a b`, so earlier elements stay in front of later
ones that compare equal (stability). -/
def jsInsertBy (le : α → α → Bool) (a : α) : List α → List α
  | [] => [a]
  | b :: l => if le a b then a :: b :: l else b :: jsInsertBy le a l

/-- Stable sort standing for JS `Array.prototype.sort(cmp)` with
`le x y := cmp x y ≤ 0`; ES2019 requires `sort` to be stable, and a stable
sort's output is determined by the comparator, so any stable algorithm is
a faithful embedding. -/
def jsSortBy (le : α → α → Bool) : List α → List α
  | [] => []
  | a :: l => jsInsertBy le a (jsSortBy le l)

/-- The string key of a suit (used in the card id). -/
def symbolStr : Symbol → String
  | Symbol.sun => "sun"
  | Symbol.moon => "moon"
  | Symbol.star => "star"
  | Symbol.cloud => "cloud"

/-- The card id the deck builder assembles: `symbol + "-" + number`. -/
def cardId (s : Symbol) (n : Nat) : String := symbolStr s ++ "-" ++ toString n

/-- A card.  `id` is a plain data field, exactly as in the source: cards
arriving from a client may carry any id whatsoever. -/
structure Card where
  symbol : Symbol
  number : Nat
  id : String
deriving DecidableEq, Repr

/-- Convenience constructor producing a card with the id the deck builder
would give it. -/
def mkCard (s : Symbol) (n : Nat) : Card := { symbol := s, number := n, id := cardId s n }

/-- The `switch (playerCount)` in `createDeck`: note the `default` branch
silently falls back to 9 instead of failing. -/
def maxNumberFor (playerCount : Nat) : Nat :=
  if playerCount = 3 then 9
  else if playerCount = 4 then 13
  else if playerCount = 5 then 15
  else 9

/-- `createDeck(playerCount)`: all `(symbol, number)` pairs with
`1 ≤ number ≤ maxNumber`, suits in `Object.keys(SYMBOLS)` order. -/
def createDeck (playerCount : Nat) : List Card :=
  symbolKeys.flatMap fun s =>
    (List.range (maxNumberFor playerCount)).map fun k => mkCard s (k + 1)

/-- `compareCards(card1, card2)`: rank position in `NUMBER_ORDER` first,
then suit position in `SYMBOL_ORDER`. -/
def compareCards (c1 c2 : Card) : Int :=
  let n1 := jsIndexOf NUMBER_ORDER c1.number
  let n2 := jsIndexOf NUMBER_ORDER c2.number
  if n1 ≠ n2 then n1 - n2
  else jsIndexOf SYMBOL_ORDER c1.symbol - jsIndexOf SYMBOL_ORDER c2.symbol

/-- `[...cards].sort(compareCards)`. -/
def sortCards (cards : List Card) : List Card :=
  jsSortBy (fun a b => decide (compareCards a b ≤ 0)) cards

/-- The `possibleStraights` list built inside `checkStraight`:
`[1..5]`, `[2..6]`, the base runs starting at `3 .. maxNumber-4`, and the
wrap runs ending in 1 — note these are cumulative: a deck with
`maxNumber ≥ 13` also accepts the `maxNumber = 9` wrap run, and
`maxNumber ≥ 15` accepts all three. -/
def possibleStraights (maxNumber : Nat) : List (List Nat) :=
  [[1, 2, 3, 4, 5], [2, 3, 4, 5, 6]]
    ++ (List.range (maxNumber - 6)).map (fun k => [k + 3, k + 4, k + 5, k + 6, k + 7])
    ++ (if 9 ≤ maxNumber then [[6, 7, 8, 9, 1]] else [])
    ++ (if 13 ≤ maxNumber then [[10, 11, 12, 13, 1]] else [])
    ++ (if 15 ≤ maxNumber then [[12, 13, 14, 15, 1]] else [])

/-- `checkStraight(cards, maxNumber)` from the latest revision: the card
numbers (sorted by `NUMBER_ORDER` position — irrelevant to the membership
test) must contain every member of one of the `possibleStraights`
patterns, with exactly 5 numbers in hand. -/
def checkStraight (cards : List Card) (maxNumber : Nat) : Bool :=
  let numbers :=
    jsSortBy
      (fun a b => decide (jsIndexOf NUMBER_ORDER a ≤ jsIndexOf NUMBER_ORDER b))
      (cards.map (fun c => c.number))
  (possibleStraights maxNumber).any fun straight =>
    decide (straight.length = 5)
      && straight.all (fun n => numbers.contains n)
      && decide (numbers.length = 5)

/-- The four straight sub-types of `getStraightType`. -/
inductive StraightType
  | one_and_two
  | two_only
  | one_at_end
  | normal
deriving DecidableEq, Repr

/-- `getStraightType(cards)`.  `Math.max()` of an empty spread is
`-Infinity`; 0 is an equivalent stand-in because the only use is the
comparison `≥ 12`. -/
def getStraightType (cards : List Card) : StraightType :=
  let hasOne := cards.any (fun c => c.number == 1)
  let hasTwo := cards.any (fun c => c.number == 2)
  if hasOne && hasTwo then StraightType.one_and_two
  else if hasTwo && !hasOne then StraightType.two_only
  else if hasOne && !hasTwo then
    let maxNormal : Nat :=
      ((cards.filter (fun c => c.number != 1)).map (fun c => c.number)).foldl max 0
    if 12 ≤ maxNormal then StraightType.one_at_end else StraightType.normal
  else StraightType.normal

/-- The `typeRanks` table in `compareStraights`. -/
def straightTypeRank : StraightType → Int
  | StraightType.one_and_two => 4
  | StraightType.two_only => 3
  | StraightType.one_at_end => 2
  | StraightType.normal => 1

/-- `getStraightHighCard(cards)`; `Array.find` can return `undefined`,
hence the `Option` (never `none` on real straights). -/
def getStraightHighCard (cards : List Card) : Option Card :=
  match getStraightType cards with
  | StraightType.one_and_two => cards.find? (fun c => c.number == 2)
  | StraightType.two_only => cards.find? (fun c => c.number == 2)
  | StraightType.one_at_end => cards.find? (fun c => c.number == 1)
  | StraightType.normal => (sortCards cards)[4]?

/-- Comparison of two optional cards; the JS source would throw on
`undefined` here, which never happens for evaluator outputs, so the
`none` branches are unreachable stand-ins. -/
def compareCardsO : Option Card → Option Card → Int
  | some a, some b => compareCards a b
  | _, _ => 0

/-- `Math.max(...)` over a list of `Int`s; the initial value stands in for
`-Infinity` and is unreachable for `NUMBER_ORDER` indices (which lie in
`[-1, 14]`). -/
def jsMaxInt (l : List Int) : Int := l.foldl max (-(2 ^ 53))

/-- `compareStraights(cards1, cards2)`. -/
def compareStraights (cards1 cards2 : List Card) : Int :=
  let t1 := getStraightType cards1
  let t2 := getStraightType cards2
  if straightTypeRank t1 ≠ straightTypeRank t2 then straightTypeRank t1 - straightTypeRank t2
  else
    let fallback := compareCardsO (getStraightHighCard cards1) (getStraightHighCard cards2)
    if t1 = StraightType.normal then
      let m1 := jsMaxInt (cards1.map (fun c => jsIndexOf NUMBER_ORDER c.number))
      let m2 := jsMaxInt (cards2.map (fun c => jsIndexOf NUMBER_ORDER c.number))
      if m1 ≠ m2 then m1 - m2 else fallback
    else fallback

-- The `HAND_RANKS` table.
namespace HAND_RANKS

def SINGLE : Nat := 1

def PAIR : Nat := 2

def TRIPLE : Nat := 3

def STRAIGHT : Nat := 4

def FLUSH : Nat := 5

def FULL_HOUSE : Nat := 6

def FOUR_KIND : Nat := 7

def STRAIGHT_FLUSH : Nat := 8

end HAND_RANKS

/-- The duck-typed hand object `analyzeHand` returns: only some of the
fields are present depending on the category, hence the `Option`s. -/
structure HandVal where
  rank : Nat
  highCard : Option Card
  number : Option Nat
  cards : Option (List Card)
deriving DecidableEq, Repr

/-- Totalization default used with `Option.getD` after an `isNone` guard
(never read on any guarded path). -/
def defaultHandVal : HandVal := { rank := 0, highCard := none, number := none, cards := none }

/-- The distinct card numbers present, in ascending numeric order — the
order JS iterates the integer-like keys of the `numberCounts` /
`numberGroups` objects. -/
def jsNumberKeys (cards : List Card) : List Nat :=
  jsSortBy (fun a b => decide (a ≤ b)) ((cards.map (fun c => c.number)).dedup)

/-- Multiplicity of a number among the cards (`numberCounts[n]`). -/
def numberCount (cards : List Card) (n : Nat) : Nat :=
  (cards.filter (fun c => c.number == n)).length

/-- `analyzeHand(cards)` of the latest revision.  The nested duplicate
`if (cards.length === 5)` block in the source shadows the outer one, and
hardcodes `playerCount = 5` (a `TODO` in the source), so `checkStraight`
is always called with `maxNumber = 15`.  The extra `playerCount` argument
callers pass is ignored by the one-parameter JS function and is therefore
not part of the embedding. -/
def analyzeHand (cards : List Card) : Option HandVal :=
  match cards with
  | [] => none
  | [a] => some { rank := HAND_RANKS.SINGLE, highCard := some a, number := none, cards := none }
  | [a, b] =>
    if a.number = b.number then
      some { rank := HAND_RANKS.PAIR, highCard := (sortCards [a, b])[1]?,
             number := some a.number, cards := none }
    else none
  | [a, b, c] =>
    if b.number = a.number ∧ c.number = a.number then
      some { rank := HAND_RANKS.TRIPLE, highCard := some a, number := some a.number,
             cards := none }
    else none
  | [a, b, c, d, e] =>
    let l := [a, b, c, d, e]
    let sorted := sortCards l
    let isFlush := l.all (fun x => x.symbol == a.symbol)
    let isStraight := checkStraight l 15
    if isFlush && isStraight then
      some { rank := HAND_RANKS.STRAIGHT_FLUSH, highCard := getStraightHighCard l,
             number := none, cards := some l }
    else if (jsNumberKeys l).any (fun n => numberCount l n == 4) then
      some { rank := HAND_RANKS.FOUR_KIND, highCard := none,
             number := (jsNumberKeys l).find? (fun n => numberCount l n == 4), cards := none }
    else if (jsNumberKeys l).any (fun n => numberCount l n == 3)
        && (jsNumberKeys l).any (fun n => numberCount l n == 2) then
      some { rank := HAND_RANKS.FULL_HOUSE, highCard := none,
             number := (jsNumberKeys l).find? (fun n => numberCount l n == 3), cards := none }
    else if isFlush then
      some { rank := HAND_RANKS.FLUSH, highCard := sorted[4]?, number := none, cards := none }
    else if isStraight then
      some { rank := HAND_RANKS.STRAIGHT, highCard := getStraightHighCard l, number := none,
             cards := some l }
    else none
  | _ => none

/-- `NUMBER_ORDER.indexOf(hand.number)`: an absent field behaves like
`indexOf(undefined) = -1`. -/
def numberIdxO : Option Nat → Int
  | some n => jsIndexOf NUMBER_ORDER n
  | none => -1

/-- `compareHands(hand1, hand2)` of the latest revision (straights go
through `compareStraights` when both sides carry their `cards`). -/
def compareHands : Option HandVal → Option HandVal → Int
  | none, _ => 0
  | some _, none => 0
  | some h1, some h2 =>
    if h1.rank ≠ h2.rank then (h1.rank : Int) - (h2.rank : Int)
    else if h1.rank = HAND_RANKS.SINGLE ∨ h1.rank = HAND_RANKS.FLUSH then
      compareCardsO h1.highCard h2.highCard
    else if h1.rank = HAND_RANKS.STRAIGHT ∨ h1.rank = HAND_RANKS.STRAIGHT_FLUSH then
      match h1.cards, h2.cards with
      | some c1, some c2 => compareStraights c1 c2
      | _, _ => compareCardsO h1.highCard h2.highCard
    else if h1.rank = HAND_RANKS.PAIR ∨ h1.rank = HAND_RANKS.TRIPLE
        ∨ h1.rank = HAND_RANKS.FULL_HOUSE ∨ h1.rank = HAND_RANKS.FOUR_KIND then
      let n1 := numberIdxO h1.number
      let n2 := numberIdxO h2.number
      if n1 ≠ n2 then n1 - n2
      else
        match h1.highCard, h2.highCard with
        | some x, some y => compareCards x y
        | _, _ => 0
    else 0

/-- A seat. -/
structure Player where
  id : String
  name : String
  cards : List Card
  isHost : Bool
  isAI : Bool
  hasLeft : Bool
deriving DecidableEq, Repr

/-- Totalization default for out-of-range list reads (every such read in
the claims is performed in range). -/
def defaultPlayer : Player :=
  { id := "", name := "", cards := [], isHost := false, isAI := false, hasLeft := false }

/-- `room.lastPlay`. -/
structure LastPlay where
  cards : List Card
  player : Option Nat
  hand : Option HandVal
deriving DecidableEq, Repr

/-- `{ cards: [], player: null, hand: null }`. -/
def emptyLastPlay : LastPlay := { cards := [], player := none, hand := none }

/-- `room.gameState`. -/
inductive GState
  | waiting
  | playing
  | finished
deriving DecidableEq, Repr

/-- The room/game aggregate.  `scores` is a JS object keyed by seat index,
embedded as a total function on indices. -/
structure Room where
  roomId : String
  players : List Player
  gameState : GState
  playerCount : Nat
  currentPlayer : Nat
  lastPlay : LastPlay
  gameLog : List String
  scores : Nat → Int
  passCount : Nat
  winner : Option Player
  round : Nat

/-- Fuel-driven loop body of `getNextActivePlayer` (`fuel` is the
remaining `attempts` budget, `room.players.length` at the start). -/
def gnapAux (ps : List Player) (cur : Nat) : Nat → Nat → Nat
  | _, 0 => cur
  | next, fuel + 1 =>
    if (ps.getD next defaultPlayer).hasLeft = false then next
    else gnapAux ps cur ((next + 1) % ps.length) fuel

/-- `getNextActivePlayer(room, currentIndex)`: scan forward from
`currentIndex + 1`, wrapping, skipping departed seats; give up after
`players.length` attempts and return `currentIndex`. -/
def getNextActivePlayer (room : Room) (currentIndex : Nat) : Nat :=
  gnapAux room.players currentIndex ((currentIndex + 1) % room.players.length)
    room.players.length

/-- The `handNames` table. -/
def handName (rank : Nat) : String :=
  if rank = 1 then "싱글"
  else if rank = 2 then "페어"
  else if rank = 3 then "트리플"
  else if rank = 4 then "스트레이트"
  else if rank = 5 then "플러쉬"
  else if rank = 6 then "풀하우스"
  else if rank = 7 then "포카드"
  else if rank = 8 then "스트레이트플러쉬"
  else ""

/-- The per-seat settlement base of `endRound`:
`0` for departed seats, otherwise `remaining cards × 2 ^ (held rank-2 cards)`. -/
def penaltyOf (p : Player) : Int :=
  if p.hasLeft then 0
  else (p.cards.length : Int) * 2 ^ (p.cards.filter (fun c => c.number == 2)).length

/-- One iteration of the settlement loop of `endRound`: seats other than
the winner that are still active transfer their penalty to the winner. -/
def settleStep (room : Room) (winnerIndex : Nat) (sc : Nat → Int) (i : Nat) : Nat → Int :=
  if i ≠ winnerIndex ∧ (room.players.getD i defaultPlayer).hasLeft = false then
    let diff := (room.players.map penaltyOf).getD i 0
    let sc1 := Function.update sc winnerIndex (sc winnerIndex + diff)
    Function.update sc1 i (sc1 i - diff)
  else sc

/-- `endRound(room, winnerIndex)` of the latest revision. -/
def endRound (room : Room) (winnerIndex : Nat) : Room :=
  { room with
      winner := room.players[winnerIndex]?
      scores := (List.range room.players.length).foldl (settleStep room winnerIndex) room.scores
      gameState := GState.finished
      round := room.round + 1 }

/-- The `playCards` socket handler of the latest revision, as a state
transition: the returned `Option String` is the error message emitted (to
the submitting socket only); `none` means the play was applied. -/
def playCardsStep (room : Room) (pid : String) (selectedCards : List Card) :
    Room × Option String :=
  if room.gameState ≠ GState.playing then
    (room, some "게임 방을 찾을 수 없거나 게임이 진행 중이 아닙니다.")
  else
    let playerIndex? := jsFindIndex (fun p => p.id == pid) room.players
    if playerIndex?.isNone then (room, some "게임 참가자가 아닙니다.")
    else
      let playerIndex := playerIndex?.getD 0
      if playerIndex ≠ room.currentPlayer then (room, some "당신의 턴이 아닙니다.")
      else
        let player := room.players.getD playerIndex defaultPlayer
        if player.hasLeft then (room, some "게임을 나간 플레이어는 플레이할 수 없습니다.")
        else if selectedCards.length = 0 then (room, some "카드를 선택해주세요.")
        else
          let hand? := analyzeHand selectedCards
          if hand?.isNone then (room, some "올바르지 않은 조합입니다.")
          else
            let hand := hand?.getD defaultHandVal
            if room.lastPlay.hand.isSome ∧ selectedCards.length ≠ room.lastPlay.cards.length then
              (room, some (toString room.lastPlay.cards.length ++ "장의 카드를 내야 합니다."))
            else if room.lastPlay.hand.isSome
                ∧ compareHands (some hand) room.lastPlay.hand ≤ 0 then
              (room, some "더 높은 조합을 내야 합니다.")
            else
              let newCards :=
                player.cards.filter (fun c => !(selectedCards.any (fun s => s.id == c.id)))
              let room1 :=
                { room with
                    players := room.players.set playerIndex { player with cards := newCards }
                    lastPlay :=
                      { cards := selectedCards, player := some playerIndex, hand := some hand }
                    passCount := 0
                    gameLog := room.gameLog
                      ++ [player.name ++ ": " ++ handName hand.rank ++ " ("
                          ++ toString selectedCards.length ++ "장)"] }
              (if newCards.length = 0 then endRound room1 playerIndex
               else { room1 with currentPlayer := getNextActivePlayer room1 room1.currentPlayer },
               none)

/-- The `pass` socket handler of the latest revision.  Note that the
wrong-room / wrong-turn / departed-seat guards `return` **silently** (no
error event); only passing on an empty pile emits an error. -/
def passStep (room : Room) (pid : String) : Room × Option String :=
  if room.gameState ≠ GState.playing then (room, none)
  else
    let playerIndex? := jsFindIndex (fun p => p.id == pid) room.players
    if playerIndex?.isNone then (room, none)
    else
      let playerIndex := playerIndex?.getD 0
      if playerIndex ≠ room.currentPlayer then (room, none)
      else
        let player := room.players.getD playerIndex defaultPlayer
        if player.hasLeft then (room, none)
        else if room.lastPlay.cards.length = 0 then
          (room, some "첫 턴에는 패스할 수 없습니다.")
        else
          let log1 := room.gameLog ++ [player.name ++ ": 패스"]
          let pc := room.passCount + 1
          let activeLen := (room.players.filter (fun p => !p.hasLeft)).length
          (if activeLen - 1 ≤ pc then
            let cur2 := room.lastPlay.player.getD 0
            { room with
                gameLog := log1
                  ++ [((room.players[cur2]?).map (fun p => p.name)).getD ""
                      ++ "님이 선이 되었습니다."]
                lastPlay := emptyLastPlay
                passCount := 0
                currentPlayer := cur2 }
          else
            { room with
                gameLog := log1
                passCount := pc
                currentPlayer := getNextActivePlayer room room.currentPlayer }, none)

/-- Replace the first element satisfying `p` (used for the host-transfer
mutation of `leaveRoom`). -/
def updateFirst (p : α → Bool) (f : α → α) : List α → List α
  | [] => []
  | a :: l => if p a then f a :: l else a :: updateFirst p f l

/-- The in-game branch of the `leaveRoom` handler: mark the seat departed,
log, advance the turn if the departing seat held it, transfer the host
role to the first active human seat. -/
def leaveRoomPlaying (room : Room) (pid : String) : Room :=
  match jsFindIndex (fun q => q.id == pid) room.players with
  | none => room
  | some idx =>
    let player := room.players.getD idx defaultPlayer
    let room1 :=
      { room with
          players := room.players.set idx { player with hasLeft := true }
          gameLog := room.gameLog ++ [player.name ++ "님이 게임을 나갔습니다."] }
    let room2 :=
      if room1.currentPlayer = idx then
        { room1 with currentPlayer := getNextActivePlayer room1 room1.currentPlayer }
      else room1
    if player.isHost then
      match jsFindIndex (fun p => !p.isAI && !p.hasLeft) room2.players with
      | some hostIdx =>
        let players2 :=
          room2.players.set hostIdx { room2.players.getD hostIdx defaultPlayer with isHost := true }
        { room2 with players := players2.set idx { players2.getD idx defaultPlayer with isHost := false } }
      | none => room2
    else room2

/-- `sanitizeRoom`'s per-seat projection: full card list only for the
requester's own seat, everyone else is reduced to a count plus an empty
list. -/
structure SPlayer where
  id : String
  name : String
  cardCount : Nat
  cards : List Card
  isHost : Bool
  isAI : Bool
  hasLeft : Bool
deriving DecidableEq, Repr

/-- Totalization default for out-of-range reads of sanitized seat lists
(every such read in the claims is performed in range). -/
def defaultSPlayer : SPlayer :=
  { id := "", name := "", cardCount := 0, cards := [], isHost := false, isAI := false,
    hasLeft := false }

/-- The sanitized room (the `{ ...room, players: ... }` spread keeps every
other field of the room). -/
structure SRoom where
  roomId : String
  players : List SPlayer
  gameState : GState
  playerCount : Nat
  currentPlayer : Nat
  lastPlay : LastPlay
  gameLog : List String
  scores : Nat → Int
  passCount : Nat
  winner : Option Player
  round : Nat

/-- One seat of `sanitizeRoom(room, requesterId)`; `requesterId` defaults
to `null` in the source (`none` here), in which case no seat reveals its
cards. -/
def sanitizePlayer (requesterId : Option String) (p : Player) : SPlayer :=
  { id := p.id
    name := p.name
    cardCount := p.cards.length
    cards :=
      match requesterId with
      | some rid => if p.id = rid then p.cards else []
      | none => []
    isHost := p.isHost
    isAI := p.isAI
    hasLeft := p.hasLeft }

/-- `sanitizeRoom(room, requesterId)`. -/
def sanitizeRoom (room : Room) (requesterId : Option String) : SRoom :=
  { roomId := room.roomId
    players := room.players.map (sanitizePlayer requesterId)
    gameState := room.gameState
    playerCount := room.playerCount
    currentPlayer := room.currentPlayer
    lastPlay := room.lastPlay
    gameLog := room.gameLog
    scores := room.scores
    passCount := room.passCount
    winner := room.winner
    round := room.round }

/-- Coarse game phase of `analyzeGameState`. -/
inductive Phase
  | earlygame
  | midgame
  | endgame
deriving DecidableEq, Repr

/-- The summary object `analyzeGameState` builds. -/
structure GSummary where
  myCardCount : Nat
  opponentCardCounts : List Nat
  minOpponentCards : Nat
  totalCards : Nat
  gamePhase : Phase
  isWinning : Bool
  isBehind : Bool
  lastPlayStrength : Nat
deriving Repr

/-- `Math.min(...)` over card counts; the large initial value stands in
for `Infinity` (empty spread), unreachable with ≥ 3 seats. -/
def jsMinNat (l : List Nat) : Nat := l.foldl min 9007199254740991

/-- `Math.max(...)` over card counts; `0` stands in for `-Infinity`
(empty spread), unreachable with ≥ 3 seats. -/
def jsMaxNat (l : List Nat) : Nat := l.foldl max 0

/-- `analyzeGameState(room, playerIndex)`. -/
def analyzeGameState (room : Room) (playerIndex : Nat) : GSummary :=
  let aiPlayer := room.players.getD playerIndex defaultPlayer
  let opponents := (room.players.enum.filter (fun x => x.1 != playerIndex)).map (fun x => x.2)
  let counts := opponents.map (fun p => p.cards.length)
  { myCardCount := aiPlayer.cards.length
    opponentCardCounts := counts
    minOpponentCards := jsMinNat counts
    totalCards := room.players.foldl (fun s p => s + p.cards.length) 0
    gamePhase :=
      if aiPlayer.cards.length ≤ 3 then Phase.endgame
      else if aiPlayer.cards.length ≤ 7 then Phase.midgame
      else Phase.earlygame
    isWinning := decide (aiPlayer.cards.length ≤ jsMinNat counts)
    isBehind := decide (jsMaxNat counts < aiPlayer.cards.length)
    lastPlayStrength :=
      match room.lastPlay.hand with
      | some h => h.rank
      | none => 0 }

/-- Cards grouped by number, groups in ascending-number order (JS
iterates integer-like object keys numerically). -/
def numberGroupsOf (cards : List Card) : List (List Card) :=
  (jsNumberKeys cards).map (fun n => cards.filter (fun c => c.number == n))

/-- Cards grouped by suit, groups in first-occurrence order (JS iterates
string object keys in insertion order). -/
def symbolGroupsOf (cards : List Card) : List (List Card) :=
  ((cards.map (fun c => c.symbol)).dedup).map (fun s => cards.filter (fun c => c.symbol == s))

/-- The counts `countStrongHands` returns. -/
structure StrongHands where
  pairs : Nat
  triples : Nat
  fours : Nat
  fiveCard : Nat
deriving Repr

/-- `countStrongHands(cards)`. -/
def countStrongHands (cards : List Card) : StrongHands :=
  let ng := numberGroupsOf cards
  { pairs := (ng.filter (fun g => g.length == 2)).length
    triples := (ng.filter (fun g => decide (3 ≤ g.length))).length
    fours := (ng.filter (fun g => decide (4 ≤ g.length))).length
    fiveCard := ((symbolGroupsOf cards).filter (fun g => decide (5 ≤ g.length))).length }

/-- The named AI strategies. -/
inductive Strategy
  | aggressive_finish
  | desperate_catch_up
  | maintain_lead
  | catch_up
  | balanced
  | power_play
  | combo_setup
  | conservative
deriving DecidableEq, Repr

/-- `determineStrategy(room, playerIndex, gameState)`. -/
def determineStrategy (room : Room) (playerIndex : Nat) (gs : GSummary) : Strategy :=
  let aiPlayer := room.players.getD playerIndex defaultPlayer
  if gs.gamePhase = Phase.endgame then
    if gs.isWinning then Strategy.aggressive_finish else Strategy.desperate_catch_up
  else if gs.gamePhase = Phase.midgame then
    if gs.isWinning then Strategy.maintain_lead
    else if gs.isBehind then Strategy.catch_up
    else Strategy.balanced
  else
    let strong := countStrongHands aiPlayer.cards
    if 0 < strong.fiveCard then Strategy.power_play
    else if 2 < strong.pairs + strong.triples then Strategy.combo_setup
    else Strategy.conservative

/-- `findAllFiveCardCombos(cards)`: the first five of every same-suit
group of at least five cards. -/
def findAllFiveCardCombos (cards : List Card) : List (List Card) :=
  if 5 ≤ cards.length then
    ((symbolGroupsOf cards).filter (fun g => decide (5 ≤ g.length))).map (fun g => g.take 5)
  else []

/-- `findAllTriples(cards)`. -/
def findAllTriples (cards : List Card) : List (List Card) :=
  ((numberGroupsOf cards).filter (fun g => decide (3 ≤ g.length))).map (fun g => g.take 3)

/-- `findAllPairs(cards)`. -/
def findAllPairs (cards : List Card) : List (List Card) :=
  ((numberGroupsOf cards).filter (fun g => decide (2 ≤ g.length))).map (fun g => g.take 2)

/-- A candidate play the AI found: the cards plus their analyzed hand. -/
structure AiPlayOption where
  cards : List Card
  hand : HandVal
deriving DecidableEq, Repr

/-- Totalization default for indexing into candidate-play lists (all
such reads in the claims are in range). -/
def defaultAiPlayOption : AiPlayOption :=
  { cards := [], hand := { rank := 0, highCard := none, number := none, cards := none } }

/-- The shared candidate test inside `findPossibleAiPlays`: analyze the
combination and keep it when it beats the pile hand. -/
def aiBeatsOption (lastPlay : LastPlay) (combo : List Card) : Option AiPlayOption :=
  match analyzeHand combo with
  | some h =>
    if 0 < compareHands (some h) lastPlay.hand then
      some { cards := combo, hand := h }
    else none
  | none => none

/-- `findPossibleAiPlays(cards, lastPlay, playerCount)`: enumerate
candidates of the pile's exact cardinality that beat the pile, then sort
them weakest-first by `compareHands`.  (The extra `playerCount` is passed
through to `analyzeHand` in the source, which ignores it.) -/
def findPossibleAiPlays (cards : List Card) (lastPlay : LastPlay) (_playerCount : Nat) :
    List AiPlayOption :=
  let targetLength := lastPlay.cards.length
  let possiblePlays :=
    if targetLength = 1 then cards.filterMap (fun card => aiBeatsOption lastPlay [card])
    else if targetLength = 2 then
      (numberGroupsOf cards).filterMap (fun group =>
        if 2 ≤ group.length then aiBeatsOption lastPlay (group.take 2) else none)
    else if targetLength = 3 then
      (numberGroupsOf cards).filterMap (fun group =>
        if 3 ≤ group.length then aiBeatsOption lastPlay (group.take 3) else none)
    else if targetLength = 5 then
      (findAllFiveCardCombos cards).filterMap (fun combo => aiBeatsOption lastPlay combo)
    else []
  jsSortBy (fun a b => decide (compareHands (some a.hand) (some b.hand) ≤ 0)) possiblePlays

/-- `Math.floor` of a non-negative rational random expression, as a `Nat`
index. -/
def jsFloorNat (q : ℚ) : Nat := (Int.floor q).toNat

/-- `chooseBestPlay(possiblePlays, gameState)`; `r` is the
`Math.random()` draw the earlygame branch may consume. -/
def chooseBestPlay (possiblePlays : List AiPlayOption) (gs : GSummary) (r : ℚ) :
    AiPlayOption :=
  if possiblePlays.length = 1 then possiblePlays.getD 0 defaultAiPlayOption
  else if gs.gamePhase = Phase.endgame then possiblePlays.getD 0 defaultAiPlayOption
  else if gs.gamePhase = Phase.midgame then
    if gs.isWinning then possiblePlays.getD 0 defaultAiPlayOption
    else possiblePlays.getD (possiblePlays.length / 2) defaultAiPlayOption
  else possiblePlays.getD (jsFloorNat (r * (min 3 possiblePlays.length : Nat))) defaultAiPlayOption

/-- The AI's decision for a responding move. -/
inductive AiDecision
  | pass
  | play (p : AiPlayOption)
deriving Repr

/-- `makeStrategicDecision(room, playerIndex, gameState, strategy)`;
`r1`, `r2` are the successive `Math.random()` draws a branch may consume.
The empty-candidate check precedes every draw: with no candidate the
decision is `pass` deterministically. -/
def makeStrategicDecision (room : Room) (playerIndex : Nat) (gs : GSummary)
    (strategy : Strategy) (r1 r2 : ℚ) : AiDecision :=
  let aiPlayer := room.players.getD playerIndex defaultPlayer
  let possiblePlays := findPossibleAiPlays aiPlayer.cards room.lastPlay room.players.length
  if possiblePlays.length = 0 then AiDecision.pass
  else
    match strategy with
    | Strategy.aggressive_finish =>
      AiDecision.play (possiblePlays.getD 0 defaultAiPlayOption)
    | Strategy.desperate_catch_up =>
      if r1 < (8 : ℚ) / 10 then AiDecision.play (chooseBestPlay possiblePlays gs r2)
      else AiDecision.pass
    | Strategy.maintain_lead =>
      if HAND_RANKS.FLUSH ≤ gs.lastPlayStrength ∧ r1 < (7 : ℚ) / 10 then AiDecision.pass
      else AiDecision.play (chooseBestPlay possiblePlays gs r2)
    | Strategy.power_play =>
      let strongPlays := possiblePlays.filter (fun p => decide (HAND_RANKS.FLUSH ≤ p.hand.rank))
      if strongPlays.length ≠ 0 ∧ r1 < (6 : ℚ) / 10 then
        AiDecision.play (strongPlays.getD 0 defaultAiPlayOption)
      else if r2 < (4 : ℚ) / 10 then AiDecision.pass
      else AiDecision.play (possiblePlays.getD 0 defaultAiPlayOption)
    | _ =>
      if possiblePlays.length = 1 then
        if r1 < (7 : ℚ) / 10 then AiDecision.play (possiblePlays.getD 0 defaultAiPlayOption)
        else AiDecision.pass
      else if HAND_RANKS.STRAIGHT ≤ gs.lastPlayStrength ∧ r1 < (1 : ℚ) / 2 then AiDecision.pass
      else AiDecision.play (chooseBestPlay possiblePlays gs r2)

/-- An opening the AI chose (`hand` may be `null` in the duck-typed
source). -/
structure Opening where
  cards : List Card
  hand : Option HandVal
deriving Repr

/-- `chooseStrategicOpening(cards, gameState, strategy, playerCount)`;
`r1`, `r2` are the successive `Math.random()` draws a branch may consume. -/
def chooseStrategicOpening (cards : List Card) (_gs : GSummary) (strategy : Strategy)
    (_playerCount : Nat) (r1 r2 : ℚ) : Opening :=
  let sortedCards := sortCards cards
  let fallback : Opening := { cards := sortedCards.take 1, hand := analyzeHand (sortedCards.take 1) }
  match strategy with
  | Strategy.power_play =>
    let fiveCombos := findAllFiveCardCombos cards
    if fiveCombos.length ≠ 0 then
      let combo := fiveCombos.getD (jsFloorNat (r1 * fiveCombos.length)) []
      { cards := combo, hand := analyzeHand combo }
    else
      let triples := findAllTriples cards
      if triples.length ≠ 0 then
        { cards := triples.getD 0 [], hand := analyzeHand (triples.getD 0 []) }
      else fallback
  | Strategy.combo_setup =>
    let pairs := findAllPairs cards
    if pairs.length ≠ 0 then
      let pair := pairs.getD (jsFloorNat (r1 * pairs.length)) []
      { cards := pair, hand := analyzeHand pair }
    else fallback
  | Strategy.aggressive_finish =>
    let allCombos := findAllFiveCardCombos cards ++ findAllTriples cards ++ findAllPairs cards
    if allCombos.length ≠ 0 then
      let best :=
        (jsSortBy (fun a b => decide (b.length ≤ a.length)) allCombos).getD 0 []
      { cards := best, hand := analyzeHand best }
    else fallback
  | _ =>
    if r1 < (1 : ℚ) / 5 then
      let combos := findAllPairs cards ++ findAllTriples cards
      if combos.length ≠ 0 then
        let combo := combos.getD (jsFloorNat (r2 * combos.length)) []
        { cards := combo, hand := analyzeHand combo }
      else fallback
    else fallback

/-- `executeAiPlay(room, playerIndex, selectedCards, hand, hint)`. -/
def executeAiPlay (room : Room) (playerIndex : Nat) (selectedCards : List Card)
    (hand : Option HandVal) (hint : String) : Room :=
  let player := room.players.getD playerIndex defaultPlayer
  let newCards := player.cards.filter (fun c => !(selectedCards.any (fun s => s.id == c.id)))
  let room1 :=
    { room with
        players := room.players.set playerIndex { player with cards := newCards }
        lastPlay := { cards := selectedCards, player := some playerIndex, hand := hand }
        passCount := 0
        gameLog := room.gameLog
          ++ [player.name ++ ": " ++ handName ((hand.map (fun h => h.rank)).getD 0) ++ " ("
              ++ toString selectedCards.length ++ "장) " ++ hint] }
  if newCards.length = 0 then endRound room1 playerIndex
  else { room1 with currentPlayer := getNextActivePlayer room1 room1.currentPlayer }

/-- The `passReasons` table of `aiPlay` (`|| ['']` for the strategies the
table omits). -/
def passReasonsFor : Strategy → List String
  | Strategy.maintain_lead => ["(여유있게 패스)", "(상황 관망)", "(시간 돌기)"]
  | Strategy.power_play => ["(더 좋은 기회를 위해)", "(숨은 카드 보호)", "(타이밍 기다리는 중)"]
  | Strategy.conservative => ["(신중한 판단)", "(위험 회피)", "(보수적 선택)"]
  | Strategy.balanced => ["(전략적 패스)", "(계산된 포기)", "(다음 기회를 위해)"]
  | _ => [""]

/-- The `strategyHints` table of `aiPlay` (`|| ['']` for the strategies
the table omits). -/
def strategyHintsFor : Strategy → List String
  | Strategy.aggressive_finish => ["(승부수!)", "(올인!)", "(마지막 스퍼트!)"]
  | Strategy.power_play => ["(강한 수!)", "(파워 플레이!)", "(압도적!)"]
  | Strategy.maintain_lead => ["(안정적)", "(계산된 수)", "(여유롭게)"]
  | Strategy.catch_up => ["(추격!)", "(역전 노리기)", "(필사적으로)"]
  | Strategy.conservative => ["(신중하게)", "(보수적으로)", "(차분하게)"]
  | Strategy.balanced => ["(균형잡힌)", "(전략적으로)", "(계산된)"]
  | _ => [""]

/-- The pass branch of `aiPlay` (lines following the `pass` decision):
log the pass with a randomly picked reason, then the same
increment / clear-or-advance logic as the human `pass` handler. -/
def aiPassEffect (room : Room) (playerIndex : Nat) (reason : String) : Room :=
  let player := room.players.getD playerIndex defaultPlayer
  let log1 := room.gameLog ++ [player.name ++ ": 패스 " ++ reason]
  let pc := room.passCount + 1
  let activeLen := (room.players.filter (fun p => !p.hasLeft)).length
  if activeLen - 1 ≤ pc then
    let cur2 := room.lastPlay.player.getD 0
    { room with
        gameLog := log1
          ++ [((room.players[cur2]?).map (fun p => p.name)).getD "" ++ "님이 선이 되었습니다."]
        lastPlay := emptyLastPlay
        passCount := 0
        currentPlayer := cur2 }
  else
    { room with
        gameLog := log1
        passCount := pc
        currentPlayer := getNextActivePlayer room room.currentPlayer }

/-- The `aiPlay` driver of the latest revision (its `try`/`catch` and the
re-entrancy latch are transport bookkeeping; every state access in the
body is guarded, so the embedded transition is total).  `r1 r2 r3` are
the successive `Math.random()` draws a path may consume. -/
def aiPlay (room : Room) (playerIndex : Nat) (r1 r2 r3 : ℚ) : Room :=
  if room.gameState ≠ GState.playing then room
  else if (room.players[playerIndex]?).isNone then room
  else
    let aiPlayer := room.players.getD playerIndex defaultPlayer
    if !aiPlayer.isAI then room
    else if aiPlayer.cards.length = 0 then room
    else
        let gs := analyzeGameState room playerIndex
        let strategy := determineStrategy room playerIndex gs
        if room.lastPlay.cards.length = 0 then
          let opening := chooseStrategicOpening aiPlayer.cards gs strategy room.players.length r1 r2
          executeAiPlay room playerIndex opening.cards opening.hand ""
        else
          match makeStrategicDecision room playerIndex gs strategy r1 r2 with
          | AiDecision.play p =>
            let hints := strategyHintsFor strategy
            executeAiPlay room playerIndex p.cards (some p.hand)
              (hints.getD (jsFloorNat (r3 * hints.length)) "")
          | AiDecision.pass =>
            let reasons := passReasonsFor strategy
            aiPassEffect room playerIndex (reasons.getD (jsFloorNat (r3 * reasons.length)) "")

/-- Statement helper (not part of the source): the room with seat `i`'s
stored hand replaced by `alt`, used to express that play validation
never reads the submitting seat's stored hand. -/
def setPlayerCards (r : Room) (i : Nat) (alt : List Card) : Room :=
  { r with players := r.players.set i { r.players.getD i defaultPlayer with cards := alt } }

/-- The mutation block of an accepted play (`room1` in `playCardsStep`),
named so the success unfolding of `playCardsStep` can be stated. -/
def playedRoomBase (r : Room) (cs : List Card) (hand : HandVal) : Room :=
  let player := r.players.getD r.currentPlayer defaultPlayer
  let newCards := player.cards.filter (fun c => !(cs.any (fun s => s.id == c.id)))
  { r with
      players := r.players.set r.currentPlayer { player with cards := newCards }
      lastPlay := { cards := cs, player := some r.currentPlayer, hand := some hand }
      passCount := 0
      gameLog := r.gameLog
        ++ [player.name ++ ": " ++ handName hand.rank ++ " ("
            ++ toString cs.length ++ "장)"] }

/-! ### Concrete instances used by witnesses and counterexamples -/

/-- Modelled from the spec's wording of the straight rule (for comparison
with the code's `possibleStraights` only): `{1,2,3,4,5}`, `{2,3,4,5,6}`,
five consecutive ranks in the base sequence `3..maxRank`, and **only**
the single top-wrap run `{maxRank-3 .. maxRank, 1}` of the deck at
hand. -/
def claimStraightRuns (maxRank : Nat) : List (List Nat) :=
  [[1, 2, 3, 4, 5], [2, 3, 4, 5, 6]]
    ++ (List.range (maxRank - 6)).map (fun k => [k + 3, k + 4, k + 5, k + 6, k + 7])
    ++ [[maxRank - 3, maxRank - 2, maxRank - 1, maxRank, 1]]

/-- Ranks `{6,7,8,9,1}` in a 4-player (`maxRank = 13`) deck. -/
def c1wrapCards : List Card :=
  [mkCard Symbol.cloud 6, mkCard Symbol.star 7, mkCard Symbol.moon 8, mkCard Symbol.sun 9,
   mkCard Symbol.cloud 1]

/-- A mid-trick 3-seat room: seat 0 has led a single cloud-3, seat 1 (a
human) is to act. -/
def w2room : Room :=
  { roomId := "W2"
    players :=
      [{ id := "a", name := "A", cards := [mkCard Symbol.cloud 3, mkCard Symbol.cloud 5],
         isHost := true, isAI := false, hasLeft := false },
       { id := "b", name := "B", cards := [mkCard Symbol.star 3, mkCard Symbol.star 5],
         isHost := false, isAI := false, hasLeft := false },
       { id := "c", name := "C", cards := [mkCard Symbol.moon 6],
         isHost := false, isAI := false, hasLeft := false }]
    gameState := GState.playing
    playerCount := 3
    currentPlayer := 1
    lastPlay :=
      { cards := [mkCard Symbol.cloud 3], player := some 0,
        hand := analyzeHand [mkCard Symbol.cloud 3] }
    gameLog := []
    scores := fun _ => 100
    passCount := 0
    winner := none
    round := 1 }

/-- The same table with an empty pile (seat 1 is the leader). -/
def w2openRoom : Room := { w2room with lastPlay := emptyLastPlay }

/-- A room for the pass-cycle witness: seat 0 played the pile, seat 1 is
to act, all three seats active. -/
def w3room : Room :=
  { roomId := "W3"
    players :=
      [{ id := "a", name := "A", cards := [mkCard Symbol.cloud 5],
         isHost := true, isAI := false, hasLeft := false },
       { id := "b", name := "B", cards := [mkCard Symbol.star 5],
         isHost := false, isAI := false, hasLeft := false },
       { id := "c", name := "C", cards := [mkCard Symbol.moon 6],
         isHost := false, isAI := false, hasLeft := false }]
    gameState := GState.playing
    playerCount := 3
    currentPlayer := 1
    lastPlay :=
      { cards := [mkCard Symbol.cloud 3], player := some 0,
        hand := analyzeHand [mkCard Symbol.cloud 3] }
    gameLog := []
    scores := fun _ => 100
    passCount := 0
    winner := none
    round := 1 }

/-- A finished-round room for the settlement witness: seat 0 has emptied
its hand, seat 1 keeps two cards one of which is a 2, seat 2 keeps one
card. -/
def w4room : Room :=
  { roomId := "W4"
    players :=
      [{ id := "a", name := "A", cards := [], isHost := true, isAI := false, hasLeft := false },
       { id := "b", name := "B", cards := [mkCard Symbol.star 2, mkCard Symbol.star 5],
         isHost := false, isAI := false, hasLeft := false },
       { id := "c", name := "C", cards := [mkCard Symbol.moon 6],
         isHost := false, isAI := false, hasLeft := false }]
    gameState := GState.playing
    playerCount := 3
    currentPlayer := 0
    lastPlay := emptyLastPlay
    gameLog := []
    scores := fun _ => 100
    passCount := 0
    winner := none
    round := 1 }

/-- Sanitization example: seat "b" conceals one card from requester "a". -/
def w5room : Room :=
  { roomId := "W5"
    players :=
      [{ id := "a", name := "A", cards := [mkCard Symbol.cloud 3],
         isHost := true, isAI := false, hasLeft := false },
       { id := "b", name := "B", cards := [mkCard Symbol.star 9],
         isHost := false, isAI := false, hasLeft := false }]
    gameState := GState.playing
    playerCount := 2
    currentPlayer := 0
    lastPlay := emptyLastPlay
    gameLog := []
    scores := fun _ => 100
    passCount := 0
    winner := none
    round := 1 }

/-- `w5room` with seat "b"'s concealed hand emptied and nothing else
changed. -/
def w5room2 : Room :=
  { w5room with
      players := w5room.players.set 1 { w5room.players.getD 1 defaultPlayer with cards := [] } }

/-- `w5room` with seat "b" holding a *different* card of the same count. -/
def w5room3 : Room :=
  { w5room with
      players := w5room.players.set 1
        { w5room.players.getD 1 defaultPlayer with cards := [mkCard Symbol.sun 7] } }

/-- Starting room of the turn-invariant trace: three active seats, seat 0
to lead on an empty pile. -/
def c6room : Room :=
  { roomId := "C6"
    players :=
      [{ id := "a", name := "A", cards := [mkCard Symbol.cloud 3, mkCard Symbol.cloud 4],
         isHost := false, isAI := false, hasLeft := false },
       { id := "b", name := "B", cards := [mkCard Symbol.star 5],
         isHost := false, isAI := false, hasLeft := false },
       { id := "c", name := "C", cards := [mkCard Symbol.moon 6],
         isHost := false, isAI := false, hasLeft := false }]
    gameState := GState.playing
    playerCount := 3
    currentPlayer := 0
    lastPlay := emptyLastPlay
    gameLog := []
    scores := fun _ => 100
    passCount := 0
    winner := none
    round := 1 }

/-- Seat 0 leads a single cloud-3. -/
def c6r1 : Room := (playCardsStep c6room "a" [mkCard Symbol.cloud 3]).1

/-- Seat 0 then leaves the game mid-trick. -/
def c6r2 : Room := leaveRoomPlaying c6r1 "a"

/-- Seat 1 passes; with two active seats the single pass clears the pile
and hands the lead back to the pile owner — the departed seat 0. -/
def c6r3 : Room := (passStep c6r2 "b").1

/-- Ownership-check witness: seat "a" (to lead) holds only cloud-4 but
submits the star-9 it does not hold. -/
def w7room : Room :=
  { roomId := "W7"
    players :=
      [{ id := "a", name := "A", cards := [mkCard Symbol.cloud 4],
         isHost := true, isAI := false, hasLeft := false },
       { id := "b", name := "B", cards := [mkCard Symbol.star 5],
         isHost := false, isAI := false, hasLeft := false },
       { id := "c", name := "C", cards := [mkCard Symbol.moon 6],
         isHost := false, isAI := false, hasLeft := false }]
    gameState := GState.playing
    playerCount := 3
    currentPlayer := 0
    lastPlay := emptyLastPlay
    gameLog := []
    scores := fun _ => 100
    passCount := 0
    winner := none
    round := 1 }

/-- Error-handling instance: seat 1 is to act on a non-empty pile; seat
"c" (seat 2) submits out of turn. -/
def w9room : Room :=
  { roomId := "W9"
    players :=
      [{ id := "a", name := "A", cards := [mkCard Symbol.cloud 5],
         isHost := true, isAI := false, hasLeft := false },
       { id := "b", name := "B", cards := [mkCard Symbol.star 5, mkCard Symbol.star 6],
         isHost := false, isAI := false, hasLeft := false },
       { id := "c", name := "C", cards := [mkCard Symbol.moon 6],
         isHost := false, isAI := false, hasLeft := false }]
    gameState := GState.playing
    playerCount := 3
    currentPlayer := 1
    lastPlay :=
      { cards := [mkCard Symbol.cloud 3], player := some 0,
        hand := analyzeHand [mkCard Symbol.cloud 3] }
    gameLog := []
    scores := fun _ => 100
    passCount := 0
    winner := none
    round := 1 }

/-- Forced-pass instance: the pile is the single sun-2 (the strongest
card), the AI seat 1 holds only a cloud-3, so no single in its hand beats
the pile. -/
def w10room : Room :=
  { roomId := "W10"
    players :=
      [{ id := "a", name := "A", cards := [mkCard Symbol.cloud 5],
         isHost := true, isAI := false, hasLeft := false },
       { id := "ai1", name := "AI", cards := [mkCard Symbol.cloud 3],
         isHost := false, isAI := true, hasLeft := false },
       { id := "c", name := "C", cards := [mkCard Symbol.moon 6],
         isHost := false, isAI := false, hasLeft := false }]
    gameState := GState.playing
    playerCount := 3
    currentPlayer := 1
    lastPlay :=
      { cards := [mkCard Symbol.sun 2], player := some 0,
        hand := analyzeHand [mkCard Symbol.sun 2] }
    gameLog := []
    scores := fun _ => 100
    passCount := 0
    winner := none
    round := 1 }

/-- One legal human pass as a plain state transition: the current seat's
pass applied to the room (used to iterate the pass cycle). -/
def humanPassIter (r : Room) : Room :=
  (passStep r ((r.players.getD r.currentPlayer defaultPlayer).id)).1

/-- The pile-clearing result branch of the `pass` handler (threshold
reached), named so the legal unfolding of `passStep` can be stated. -/
def passClearRoom (r : Room) : Room :=
  { r with
      gameLog := (r.gameLog ++ [(r.players.getD r.currentPlayer defaultPlayer).name ++ ": 패스"])
        ++ [((r.players[r.lastPlay.player.getD 0]?).map (fun p => p.name)).getD ""
            ++ "님이 선이 되었습니다."]
      lastPlay := emptyLastPlay
      passCount := 0
      currentPlayer := r.lastPlay.player.getD 0 }

/-- The turn-advancing result branch of the `pass` handler (threshold not
reached). -/
def passAdvanceRoom (r : Room) : Room :=
  { r with
      gameLog := r.gameLog ++ [(r.players.getD r.currentPlayer defaultPlayer).name ++ ": 패스"]
      passCount := r.passCount + 1
      currentPlayer := getNextActivePlayer r r.currentPlayer }

/-! ### Helper lemmas -/

theorem jsInsertBy_perm (le : α → α → Bool) (a : α) (l : List α) :
    (jsInsertBy le a l).Perm (a :: l) := by
  induction l with
  | nil => simp [jsInsertBy]
  | cons b t ih =>
    simp only [jsInsertBy]
    split
    · exact List.Perm.refl _
    · exact (List.Perm.cons b ih).trans (List.Perm.swap a b t)

theorem jsSortBy_perm (le : α → α → Bool) (l : List α) : (jsSortBy le l).Perm l := by
  induction l with
  | nil => exact List.Perm.refl _
  | cons a t ih => exact (jsInsertBy_perm le a (jsSortBy le t)).trans (List.Perm.cons a ih)

theorem jsSortBy_mem (le : α → α → Bool) (l : List α) (a : α) :
    a ∈ jsSortBy le l ↔ a ∈ l :=
  (jsSortBy_perm le l).mem_iff

theorem jsSortBy_length (le : α → α → Bool) (l : List α) :
    (jsSortBy le l).length = l.length :=
  (jsSortBy_perm le l).length_eq

theorem jsFindIndex_lt_length {p : α → Bool} {l : List α} {i : Nat}
    (h : jsFindIndex p l = some i) : i < l.length := by
  induction l generalizing i with
  | nil => simp [jsFindIndex] at h
  | cons a t ih =>
    simp only [jsFindIndex] at h
    split at h
    · cases h; simp
    · match hr : jsFindIndex p t with
      | none => rw [hr] at h; simp at h
      | some j =>
        rw [hr] at h
        have h' : some (j + 1) = some i := h
        cases h'
        have := ih hr
        simp only [List.length_cons]
        omega

theorem jsFindIndex_id {ps : List Player} (h : (ps.map Player.id).Nodup) {i : Nat}
    (hi : i < ps.length) :
    jsFindIndex (fun p => p.id == (ps.getD i defaultPlayer).id) ps = some i := by
  induction ps generalizing i with
  | nil => simp at hi
  | cons a t ih =>
    cases i with
    | zero =>
      have hgd : (a :: t).getD 0 defaultPlayer = a := rfl
      rw [hgd]
      simp [jsFindIndex]
    | succ i =>
      have hgd : (a :: t).getD (i + 1) defaultPlayer = t.getD i defaultPlayer := rfl
      have hit : i < t.length := by simpa using hi
      have hmem : (t.getD i defaultPlayer).id ∈ t.map Player.id := by
        rw [List.getD_eq_getElem _ _ hit]
        exact List.mem_map_of_mem _ (List.getElem_mem hit)
      have hne : (a.id == (t.getD i defaultPlayer).id) = false := by
        rw [beq_eq_false_iff_ne]
        intro heq
        rw [List.map_cons, List.nodup_cons] at h
        exact h.1 (heq ▸ hmem)
      simp only [jsFindIndex, hgd, hne, Bool.false_eq_true, if_false]
      rw [ih (by rw [List.map_cons, List.nodup_cons] at h; exact h.2) hit]
      rfl

theorem gnapAux_spec (ps : List Player) (cur : Nat) :
    ∀ (f next : Nat), next < ps.length →
      (∃ j, j < f ∧ (ps.getD ((next + j) % ps.length) defaultPlayer).hasLeft = false) →
      (ps.getD (gnapAux ps cur next f) defaultPlayer).hasLeft = false ∧
        gnapAux ps cur next f < ps.length := by
  intro f
  induction f with
  | zero =>
    rintro next _ ⟨j, hj, _⟩
    exact absurd hj (Nat.not_lt_zero j)
  | succ f ih =>
    rintro next hnext ⟨j, hj, hact⟩
    rw [gnapAux]
    split
    · exact ⟨by assumption, hnext⟩
    · rename_i hno
      apply ih ((next + 1) % ps.length) (Nat.mod_lt _ (by omega))
      cases j with
      | zero =>
        rw [Nat.add_zero, Nat.mod_eq_of_lt hnext] at hact
        exact absurd hact hno
      | succ j =>
        refine ⟨j, by omega, ?_⟩
        rw [Nat.mod_add_mod]
        have : next + 1 + j = next + (j + 1) := by omega
        rw [this]
        exact hact

theorem getNextActivePlayer_active (room : Room) (cur : Nat)
    (h : ∃ p ∈ room.players, p.hasLeft = false) :
    (room.players.getD (getNextActivePlayer room cur) defaultPlayer).hasLeft = false ∧
      getNextActivePlayer room cur < room.players.length := by
  obtain ⟨p, hp, hact⟩ := h
  obtain ⟨i, hi, hgi⟩ := List.getElem_of_mem hp
  have hlen : 0 < room.players.length := by omega
  have hnext : (cur + 1) % room.players.length < room.players.length := Nat.mod_lt _ hlen
  apply gnapAux_spec room.players cur room.players.length _ hnext
  refine ⟨(i + room.players.length - (cur + 1) % room.players.length) % room.players.length,
    Nat.mod_lt _ hlen, ?_⟩
  set len := room.players.length with hlendef
  set next := (cur + 1) % len with hnextdef
  have h1 : (next + (i + len - next) % len) % len = (next + (i + len - next)) % len :=
    Nat.add_mod_mod _ _ _
  have h2 : next + (i + len - next) = i + len := by omega
  rw [h1, h2, Nat.add_mod_right, Nat.mod_eq_of_lt hi, List.getD_eq_getElem _ _ hi, hgi]
  exact hact

theorem exists_active_of_filter {ps : List Player}
    (h : 0 < (ps.filter (fun p => !p.hasLeft)).length) :
    ∃ p ∈ ps, p.hasLeft = false := by
  match hf : ps.filter (fun p => !p.hasLeft) with
  | [] => rw [hf] at h; simp at h
  | q :: t =>
    have hq : q ∈ ps.filter (fun p => !p.hasLeft) := by rw [hf]; simp
    have := List.of_mem_filter hq
    exact ⟨q, List.mem_of_mem_filter hq, by simpa using this⟩

theorem jsContains_iff [BEq α] [LawfulBEq α] {l : List α} {a : α} :
    l.contains a = true ↔ a ∈ l :=
  List.elem_iff

theorem mem_possibleStraights (maxN : Nat) (p : List Nat) :
    p ∈ possibleStraights maxN ↔
      p = [1, 2, 3, 4, 5] ∨ p = [2, 3, 4, 5, 6] ∨
        (∃ s, 3 ≤ s ∧ s + 4 ≤ maxN ∧ p = [s, s + 1, s + 2, s + 3, s + 4]) ∨
        (9 ≤ maxN ∧ p = [6, 7, 8, 9, 1]) ∨
        (13 ≤ maxN ∧ p = [10, 11, 12, 13, 1]) ∨
        (15 ≤ maxN ∧ p = [12, 13, 14, 15, 1]) := by
  unfold possibleStraights
  constructor
  · intro h
    rcases List.mem_append.mp h with h | h15
    rcases List.mem_append.mp h with h | h13
    rcases List.mem_append.mp h with h | h9
    rcases List.mem_append.mp h with h2 | hrange
    · rcases List.mem_cons.mp h2 with h' | h2
      · exact Or.inl h'
      rcases List.mem_cons.mp h2 with h' | h2
      · exact Or.inr (Or.inl h')
      · exact absurd h2 (List.not_mem_nil p)
    · obtain ⟨k, hk, hkp⟩ := List.mem_map.mp hrange
      rw [List.mem_range] at hk
      refine Or.inr (Or.inr (Or.inl ⟨k + 3, by omega, by omega, hkp.symm⟩))
    · by_cases hc : 9 ≤ maxN
      · rw [if_pos hc] at h9
        rcases List.mem_cons.mp h9 with h' | h9
        · exact Or.inr (Or.inr (Or.inr (Or.inl ⟨hc, h'⟩)))
        · exact absurd h9 (List.not_mem_nil p)
      · rw [if_neg hc] at h9
        exact absurd h9 (List.not_mem_nil p)
    · by_cases hc : 13 ≤ maxN
      · rw [if_pos hc] at h13
        rcases List.mem_cons.mp h13 with h' | h13
        · exact Or.inr (Or.inr (Or.inr (Or.inr (Or.inl ⟨hc, h'⟩))))
        · exact absurd h13 (List.not_mem_nil p)
      · rw [if_neg hc] at h13
        exact absurd h13 (List.not_mem_nil p)
    · by_cases hc : 15 ≤ maxN
      · rw [if_pos hc] at h15
        rcases List.mem_cons.mp h15 with h' | h15
        · exact Or.inr (Or.inr (Or.inr (Or.inr (Or.inr ⟨hc, h'⟩))))
        · exact absurd h15 (List.not_mem_nil p)
      · rw [if_neg hc] at h15
        exact absurd h15 (List.not_mem_nil p)
  · rintro (h | h | ⟨s, hs3, hs4, hp⟩ | ⟨h9, hp⟩ | ⟨h13, hp⟩ | ⟨h15, hp⟩)
    · exact List.mem_append.mpr (Or.inl (List.mem_append.mpr (Or.inl (List.mem_append.mpr
        (Or.inl (List.mem_append.mpr (Or.inl (by rw [h]; exact List.mem_cons_self _ _))))))))
    · refine List.mem_append.mpr (Or.inl (List.mem_append.mpr (Or.inl (List.mem_append.mpr
        (Or.inl (List.mem_append.mpr (Or.inl ?_)))))))
      rw [h]
      exact List.mem_cons_of_mem _ (List.mem_cons_self _ _)
    · refine List.mem_append.mpr (Or.inl (List.mem_append.mpr (Or.inl (List.mem_append.mpr
        (Or.inl (List.mem_append.mpr (Or.inr ?_)))))))
      refine List.mem_map.mpr ⟨s - 3, List.mem_range.mpr (by omega), ?_⟩
      rw [hp]
      simp only [List.cons.injEq, and_true]
      omega
    · refine List.mem_append.mpr (Or.inl (List.mem_append.mpr (Or.inl (List.mem_append.mpr
        (Or.inr ?_)))))
      rw [if_pos h9, hp]
      exact List.mem_cons_self _ _
    · refine List.mem_append.mpr (Or.inl (List.mem_append.mpr (Or.inr ?_)))
      rw [if_pos h13, hp]
      exact List.mem_cons_self _ _
    · refine List.mem_append.mpr (Or.inr ?_)
      rw [if_pos h15, hp]
      exact List.mem_cons_self _ _

theorem possibleStraights_len_nodup {maxN : Nat} {p : List Nat}
    (hp : p ∈ possibleStraights maxN) : p.length = 5 ∧ p.Nodup := by
  rcases (mem_possibleStraights maxN p).mp hp with
    h | h | ⟨s, _, _, h⟩ | ⟨_, h⟩ | ⟨_, h⟩ | ⟨_, h⟩
  · subst h; exact ⟨by decide, by decide⟩
  · subst h; exact ⟨by decide, by decide⟩
  · subst h
    exact ⟨rfl, by simp +arith [List.nodup_cons]⟩
  · subst h; exact ⟨by decide, by decide⟩
  · subst h; exact ⟨by decide, by decide⟩
  · subst h; exact ⟨by decide, by decide⟩

theorem checkStraight_true_iff (cards : List Card) (maxN : Nat) :
    checkStraight cards maxN = true ↔
      ∃ p ∈ possibleStraights maxN, (cards.map Card.number).Perm p := by
  unfold checkStraight
  have hperm :
      (jsSortBy (fun a b => decide (jsIndexOf NUMBER_ORDER a ≤ jsIndexOf NUMBER_ORDER b))
        (cards.map (fun c => c.number))).Perm (cards.map Card.number) :=
    jsSortBy_perm _ _
  simp only [List.any_eq_true, Bool.and_eq_true, decide_eq_true_eq, List.all_eq_true]
  constructor
  · rintro ⟨p, hp, ⟨h5, hall⟩, hlen⟩
    obtain ⟨hp5, hpnd⟩ := possibleStraights_len_nodup hp
    refine ⟨p, hp, ?_⟩
    have hsub : p ⊆ cards.map Card.number := by
      intro n hn
      exact hperm.mem_iff.mp (jsContains_iff.mp (hall n hn))
    have hsp : p.Subperm (cards.map Card.number) := List.subperm_of_subset hpnd hsub
    have hlens : (cards.map Card.number).length = 5 := hperm.length_eq ▸ hlen
    exact (hsp.perm_of_length_le (by omega)).symm
  · rintro ⟨p, hp, hpm⟩
    obtain ⟨hp5, _⟩ := possibleStraights_len_nodup hp
    refine ⟨p, hp, ⟨hp5, ?_⟩, ?_⟩
    · intro n hn
      exact jsContains_iff.mpr (hperm.mem_iff.mpr (hpm.mem_iff.mpr hn))
    · rw [hperm.length_eq, hpm.length_eq, hp5]

/-! ### Claim theorems -/

/-- **C1** — counterexample.  The claim says a deck with `maxRank = 13`
recognizes, beyond `{1,2,3,4,5}`, `{2,3,4,5,6}` and the base consecutive
runs, **only** the single top-wrap run `{10,11,12,13,1}`.  But
`checkStraight` classifies the rank set `{6,7,8,9,1}` — five cards that
all exist in the 13-deck, matching none of the claim's runs
(`claimStraightRuns 13`) — as a straight: the wrap patterns are added
cumulatively (`maxNumber >= 9` keeps `[6,7,8,9,1]` even when
`maxNumber = 13`). -/
theorem checkStraight_lower_wrap_counterexample :
    checkStraight c1wrapCards 13 = true ∧
      (c1wrapCards.map Card.number).Perm [6, 7, 8, 9, 1] ∧
      (∀ p ∈ claimStraightRuns 13, ¬(c1wrapCards.map Card.number).Perm p) ∧
      (∀ c ∈ c1wrapCards, 1 ≤ c.number ∧ c.number ≤ 13) := by
  refine ⟨by decide, by decide, ?_, by decide⟩
  decide

/-- **C1** (amended).  For every 5-card list and every `maxNumber`, the
evaluator's `checkStraight` recognizes the cards as a straight exactly
when their ranks are a permutation of `{1,2,3,4,5}`, `{2,3,4,5,6}`, five
consecutive ranks within the base sequence `3..maxNumber`, or **any** of
the wrap runs `{6,7,8,9,1}` (when `maxNumber ≥ 9`), `{10,11,12,13,1}`
(when `maxNumber ≥ 13`), `{12,13,14,15,1}` (when `maxNumber ≥ 15`) — the
wrap runs are cumulative, not restricted to the single run determined by
the deck's own `maxRank` as the claim asserts. -/
theorem checkStraight_recognized_runs (cards : List Card) (maxN : Nat) :
    checkStraight cards maxN = true ↔
      (cards.map Card.number).Perm [1, 2, 3, 4, 5] ∨
        (cards.map Card.number).Perm [2, 3, 4, 5, 6] ∨
        (∃ s, 3 ≤ s ∧ s + 4 ≤ maxN ∧
          (cards.map Card.number).Perm [s, s + 1, s + 2, s + 3, s + 4]) ∨
        (9 ≤ maxN ∧ (cards.map Card.number).Perm [6, 7, 8, 9, 1]) ∨
        (13 ≤ maxN ∧ (cards.map Card.number).Perm [10, 11, 12, 13, 1]) ∨
        (15 ≤ maxN ∧ (cards.map Card.number).Perm [12, 13, 14, 15, 1]) := by
  rw [checkStraight_true_iff]
  constructor
  · rintro ⟨p, hp, hpm⟩
    rcases (mem_possibleStraights maxN p).mp hp with
      h | h | ⟨s, hs3, hs4, h⟩ | ⟨hc, h⟩ | ⟨hc, h⟩ | ⟨hc, h⟩
    · exact Or.inl (h ▸ hpm)
    · exact Or.inr (Or.inl (h ▸ hpm))
    · exact Or.inr (Or.inr (Or.inl ⟨s, hs3, hs4, h ▸ hpm⟩))
    · exact Or.inr (Or.inr (Or.inr (Or.inl ⟨hc, h ▸ hpm⟩)))
    · exact Or.inr (Or.inr (Or.inr (Or.inr (Or.inl ⟨hc, h ▸ hpm⟩))))
    · exact Or.inr (Or.inr (Or.inr (Or.inr (Or.inr ⟨hc, h ▸ hpm⟩))))
  · rintro (h | h | ⟨s, hs3, hs4, h⟩ | ⟨hc, h⟩ | ⟨hc, h⟩ | ⟨hc, h⟩)
    · exact ⟨_, (mem_possibleStraights maxN _).mpr (Or.inl rfl), h⟩
    · exact ⟨_, (mem_possibleStraights maxN _).mpr (Or.inr (Or.inl rfl)), h⟩
    · exact ⟨_, (mem_possibleStraights maxN _).mpr
        (Or.inr (Or.inr (Or.inl ⟨s, hs3, hs4, rfl⟩))), h⟩
    · exact ⟨_, (mem_possibleStraights maxN _).mpr
        (Or.inr (Or.inr (Or.inr (Or.inl ⟨hc, rfl⟩)))), h⟩
    · exact ⟨_, (mem_possibleStraights maxN _).mpr
        (Or.inr (Or.inr (Or.inr (Or.inr (Or.inl ⟨hc, rfl⟩))))), h⟩
    · exact ⟨_, (mem_possibleStraights maxN _).mpr
        (Or.inr (Or.inr (Or.inr (Or.inr (Or.inr ⟨hc, rfl⟩))))), h⟩

/-- **C8** — counterexample.  For a seat count outside `{3,4,5}` the
deck builder does **not** fail with a configuration error: the `switch`
default silently falls back to `maxNumber = 9`, producing the full
36-card 3-player deck. -/
theorem createDeck_no_failure_counterexample :
    createDeck 6 = createDeck 3 ∧ (createDeck 6).length = 36 := by
  exact ⟨rfl, by decide⟩

/-- **C8** (amended).  `createDeck n` always returns exactly
`4 × maxNumberFor n` distinct cards — every `(suit, rank)` pair with
`1 ≤ rank ≤ maxNumberFor n`, where `maxNumberFor` maps `3, 4, 5` to
`9, 13, 15`; for every seat count outside `{3,4,5}` it does not fail but
silently returns the `maxRank = 9` deck (identical to `createDeck 3`). -/
theorem createDeck_characterization :
    (∀ n, (createDeck n).length = 4 * maxNumberFor n) ∧
      (∀ n, (createDeck n).Nodup) ∧
      (∀ n, ∀ c ∈ createDeck n, 1 ≤ c.number ∧ c.number ≤ maxNumberFor n) ∧
      (∀ n (s : Symbol) (m : Nat), 1 ≤ m → m ≤ maxNumberFor n →
        mkCard s m ∈ createDeck n) ∧
      maxNumberFor 3 = 9 ∧ maxNumberFor 4 = 13 ∧ maxNumberFor 5 = 15 ∧
      (∀ n, n ≠ 3 → n ≠ 4 → n ≠ 5 → createDeck n = createDeck 3) := by
  have hdisj : ∀ (n : Nat) (s1 s2 : Symbol), s1 ≠ s2 →
      List.Disjoint ((List.range (maxNumberFor n)).map (fun k => mkCard s1 (k + 1)))
        ((List.range (maxNumberFor n)).map (fun k => mkCard s2 (k + 1))) := by
    intro n s1 s2 hne c hc1 hc2
    obtain ⟨k1, _, hk1⟩ := List.mem_map.mp hc1
    obtain ⟨k2, _, hk2⟩ := List.mem_map.mp hc2
    exact hne (congrArg Card.symbol (hk1.trans hk2.symm))
  refine ⟨?_, ?_, ?_, ?_, rfl, rfl, rfl, ?_⟩
  · intro n
    simp only [createDeck, List.length_flatMap, symbolKeys, List.map_cons, List.map_nil,
      Function.comp, List.length_map, List.length_range, List.sum_cons, List.sum_nil]
    ring
  · intro n
    rw [createDeck, List.nodup_flatMap]
    constructor
    · intro s _
      refine List.Nodup.map ?_ (List.nodup_range _)
      intro k1 k2 hk
      have : k1 + 1 = k2 + 1 := congrArg Card.number hk
      omega
    · refine List.Pairwise.cons ?_ (List.Pairwise.cons ?_ (List.Pairwise.cons ?_
        (List.Pairwise.cons (fun y hy => absurd hy (List.not_mem_nil y))
          List.Pairwise.nil)))
      · intro y hy
        refine hdisj n _ y (fun he => ?_)
        subst he
        revert hy
        decide
      · intro y hy
        refine hdisj n _ y (fun he => ?_)
        subst he
        revert hy
        decide
      · intro y hy
        refine hdisj n _ y (fun he => ?_)
        subst he
        revert hy
        decide
  · intro n c hc
    rw [createDeck] at hc
    obtain ⟨s, _, hcs⟩ := List.mem_flatMap.mp hc
    obtain ⟨k, hk, hkc⟩ := List.mem_map.mp hcs
    rw [List.mem_range] at hk
    rw [← hkc]
    constructor
    · simp [mkCard]
    · simp only [mkCard]
      omega
  · intro n s m h1 h2
    rw [createDeck]
    refine List.mem_flatMap.mpr ⟨s, ?_, ?_⟩
    · cases s <;> decide
    · refine List.mem_map.mpr ⟨m - 1, List.mem_range.mpr (by omega), ?_⟩
      have h3 : m - 1 + 1 = m := by omega
      rw [h3]
  · intro n h3 h4 h5
    have hmax : maxNumberFor n = maxNumberFor 3 := by
      unfold maxNumberFor
      rw [if_neg h3, if_neg h4, if_neg h5]
      decide
    unfold createDeck
    rw [hmax]

/-- **C8** — witness: the amended theorem applied at concrete inputs
(seat count 6 falls back to the 3-player deck, the cloud-3 exists in the
4-player deck, the 5-player deck has `4 × 15` cards). -/
theorem createDeck_characterization_witness :
    createDeck 6 = createDeck 3 ∧ mkCard Symbol.cloud 3 ∈ createDeck 4 ∧
      (createDeck 5).length = 4 * maxNumberFor 5 := by
  refine ⟨createDeck_characterization.2.2.2.2.2.2.2 6 (by decide) (by decide) (by decide),
    createDeck_characterization.2.2.2.1 4 Symbol.cloud 3 (by decide) (by decide),
    createDeck_characterization.1 5⟩

theorem settleStep_eq_pos (room : Room) (w : Nat) (sc : Nat → Int) (i : Nat)
    (hc : i ≠ w ∧ (room.players.getD i defaultPlayer).hasLeft = false) :
    settleStep room w sc i =
      Function.update
        (Function.update sc w (sc w + (room.players.map penaltyOf).getD i 0)) i
        (sc i - (room.players.map penaltyOf).getD i 0) := by
  unfold settleStep
  rw [if_pos hc]
  show Function.update
      (Function.update sc w (sc w + (room.players.map penaltyOf).getD i 0)) i
      ((Function.update sc w (sc w + (room.players.map penaltyOf).getD i 0)) i
        - (room.players.map penaltyOf).getD i 0) = _
  rw [Function.update_noteq hc.1]

theorem settleStep_eq_neg (room : Room) (w : Nat) (sc : Nat → Int) (i : Nat)
    (hc : ¬(i ≠ w ∧ (room.players.getD i defaultPlayer).hasLeft = false)) :
    settleStep room w sc i = sc := by
  unfold settleStep
  rw [if_neg hc]

theorem settle_foldl_ne (room : Room) (w : Nat) :
    ∀ (l : List Nat) (sc : Nat → Int) (j : Nat), l.Nodup → j ≠ w →
      (l.foldl (settleStep room w) sc) j =
        sc j - (if j ∈ l ∧ (room.players.getD j defaultPlayer).hasLeft = false
                then (room.players.map penaltyOf).getD j 0 else 0) := by
  intro l
  induction l with
  | nil => intro sc j _ _; simp
  | cons a t ih =>
    intro sc j hnd hj
    rw [List.foldl_cons, ih (settleStep room w sc a) j hnd.of_cons hj]
    by_cases haj : a = j
    · subst haj
      have hjt : a ∉ t := (List.nodup_cons.mp hnd).1
      rw [if_neg (fun hx => hjt hx.1)]
      by_cases hcond : a ≠ w ∧ (room.players.getD a defaultPlayer).hasLeft = false
      · rw [settleStep_eq_pos room w sc a hcond, Function.update_same,
          if_pos ⟨List.mem_cons_self a t, hcond.2⟩]
        ring
      · rw [settleStep_eq_neg room w sc a hcond]
        have hact : ¬(room.players.getD a defaultPlayer).hasLeft = false :=
          fun hx => hcond ⟨hj, hx⟩
        rw [if_neg (fun hx => hact hx.2)]
    · have hstep : (settleStep room w sc a) j = sc j := by
        by_cases hc : a ≠ w ∧ (room.players.getD a defaultPlayer).hasLeft = false
        · rw [settleStep_eq_pos room w sc a hc,
            Function.update_noteq (fun hh => haj hh.symm), Function.update_noteq hj]
        · rw [settleStep_eq_neg room w sc a hc]
      rw [hstep]
      have hiff : (j ∈ a :: t ∧ (room.players.getD j defaultPlayer).hasLeft = false) ↔
          (j ∈ t ∧ (room.players.getD j defaultPlayer).hasLeft = false) := by
        constructor
        · rintro ⟨hm, hx⟩
          rcases List.mem_cons.mp hm with h' | h'
          · exact absurd h'.symm haj
          · exact ⟨h', hx⟩
        · rintro ⟨hm, hx⟩
          exact ⟨List.mem_cons_of_mem a hm, hx⟩
      rw [if_congr hiff rfl rfl]

theorem settle_foldl_w (room : Room) (w : Nat) :
    ∀ (l : List Nat) (sc : Nat → Int),
      (l.foldl (settleStep room w) sc) w =
        sc w + (l.map (fun i =>
          if i ≠ w ∧ (room.players.getD i defaultPlayer).hasLeft = false
          then (room.players.map penaltyOf).getD i 0 else 0)).sum := by
  intro l
  induction l with
  | nil => intro sc; simp
  | cons a t ih =>
    intro sc
    rw [List.foldl_cons, List.map_cons, List.sum_cons, ih]
    have hstep : (settleStep room w sc a) w =
        sc w + (if a ≠ w ∧ (room.players.getD a defaultPlayer).hasLeft = false
                then (room.players.map penaltyOf).getD a 0 else 0) := by
      by_cases hc : a ≠ w ∧ (room.players.getD a defaultPlayer).hasLeft = false
      · rw [settleStep_eq_pos room w sc a hc, if_pos hc,
          Function.update_noteq (Ne.symm hc.1), Function.update_same]
      · rw [settleStep_eq_neg room w sc a hc, if_neg hc]
        ring
    rw [hstep]
    ring

theorem map_neg_sum (g : Nat → Int) (l : List Nat) :
    (l.map (fun i => -(g i))).sum = -((l.map g).sum) := by
  induction l with
  | nil => simp
  | cons a t ih =>
    rw [List.map_cons, List.sum_cons, ih, List.map_cons, List.sum_cons]
    ring

theorem map_ite_sum_no_w (w : Nat) (C : Int) (g : Nat → Int) :
    ∀ t : List Nat, w ∉ t →
      (t.map (fun i => if i = w then C else -(g i))).sum = -((t.map g).sum) := by
  intro t
  induction t with
  | nil => intro _; simp
  | cons a t ih =>
    intro hw
    have haw : ¬a = w := fun hh => hw (hh ▸ List.mem_cons_self a t)
    rw [List.map_cons, List.sum_cons, if_neg haw,
      ih (fun hh => hw (List.mem_cons_of_mem a hh)), List.map_cons, List.sum_cons]
    ring

theorem map_ite_sum_eq (w : Nat) (C : Int) (g : Nat → Int) (hgw : g w = 0) :
    ∀ l : List Nat, l.Nodup → w ∈ l →
      (l.map (fun i => if i = w then C else -(g i))).sum = C - (l.map g).sum := by
  intro l
  induction l with
  | nil => intro _ hw; exact absurd hw (List.not_mem_nil w)
  | cons a t ih =>
    intro hnd hw
    by_cases haw : a = w
    · subst haw
      have hwt : a ∉ t := (List.nodup_cons.mp hnd).1
      rw [List.map_cons, List.sum_cons, if_pos rfl, map_ite_sum_no_w _ _ _ t hwt,
        List.map_cons, List.sum_cons, hgw]
      ring
    · have hw' : w ∈ t := by
        rcases List.mem_cons.mp hw with h' | h'
        · exact absurd h'.symm haw
        · exact h'
      rw [List.map_cons, List.sum_cons, if_neg haw, ih hnd.of_cons hw', List.map_cons,
        List.sum_cons]
      ring

theorem penaltyOf_getD (r : Room) {i : Nat} (hi : i < r.players.length) :
    (r.players.map penaltyOf).getD i 0 = penaltyOf (r.players.getD i defaultPlayer) := by
  rw [List.getD_eq_getElem _ _ (by simpa using hi), List.getElem_map,
    List.getD_eq_getElem _ _ hi]

/-- **C4**.  On round settlement with winner seat `w`: every other
active seat's score drops by exactly its penalty
(`remaining cards × 2 ^ (rank-2 cards held)`, the stated formula being
the last conjunct), the winner's score rises by the sum of those
penalties, inactive (and out-of-range) seats are untouched, and the
sum of all score deltas over the seats is zero. -/
theorem endRound_settlement (r : Room) (w : Nat) (hw : w < r.players.length) :
    (∀ i, i < r.players.length → i ≠ w →
        (r.players.getD i defaultPlayer).hasLeft = false →
        (endRound r w).scores i = r.scores i - penaltyOf (r.players.getD i defaultPlayer)) ∧
      ((endRound r w).scores w = r.scores w +
        ((List.range r.players.length).map (fun i =>
          if i ≠ w ∧ (r.players.getD i defaultPlayer).hasLeft = false
          then penaltyOf (r.players.getD i defaultPlayer) else 0)).sum) ∧
      (∀ i, i ≠ w →
        ((r.players.getD i defaultPlayer).hasLeft = true ∨ r.players.length ≤ i) →
        (endRound r w).scores i = r.scores i) ∧
      (((List.range r.players.length).map
          (fun i => (endRound r w).scores i - r.scores i)).sum = 0) ∧
      (∀ p : Player, penaltyOf p =
        if p.hasLeft then 0
        else (p.cards.length : Int) * 2 ^ (p.cards.filter (fun c => c.number == 2)).length) := by
  have hsc : (endRound r w).scores =
      (List.range r.players.length).foldl (settleStep r w) r.scores := rfl
  have hcong : ∀ i ∈ List.range r.players.length,
      (if i ≠ w ∧ (r.players.getD i defaultPlayer).hasLeft = false
       then (r.players.map penaltyOf).getD i 0 else 0) =
      (if i ≠ w ∧ (r.players.getD i defaultPlayer).hasLeft = false
       then penaltyOf (r.players.getD i defaultPlayer) else 0) := by
    intro i hi
    rw [List.mem_range] at hi
    by_cases hc : i ≠ w ∧ (r.players.getD i defaultPlayer).hasLeft = false
    · rw [if_pos hc, if_pos hc, penaltyOf_getD r hi]
    · rw [if_neg hc, if_neg hc]
  have hne : ∀ i, i < r.players.length → i ≠ w →
      (r.players.getD i defaultPlayer).hasLeft = false →
      (endRound r w).scores i = r.scores i - penaltyOf (r.players.getD i defaultPlayer) := by
    intro i hi hiw hact
    rw [hsc, settle_foldl_ne r w (List.range r.players.length) r.scores i
      (List.nodup_range _) hiw, if_pos ⟨List.mem_range.mpr hi, hact⟩, penaltyOf_getD r hi]
  have hwin : (endRound r w).scores w = r.scores w +
      ((List.range r.players.length).map (fun i =>
        if i ≠ w ∧ (r.players.getD i defaultPlayer).hasLeft = false
        then penaltyOf (r.players.getD i defaultPlayer) else 0)).sum := by
    rw [hsc, settle_foldl_w r w (List.range r.players.length) r.scores,
      List.map_congr_left hcong]
  have hun : ∀ i, i ≠ w →
      ((r.players.getD i defaultPlayer).hasLeft = true ∨ r.players.length ≤ i) →
      (endRound r w).scores i = r.scores i := by
    intro i hiw hcase
    rw [hsc, settle_foldl_ne r w (List.range r.players.length) r.scores i
      (List.nodup_range _) hiw]
    have : ¬(i ∈ List.range r.players.length ∧
        (r.players.getD i defaultPlayer).hasLeft = false) := by
      rintro ⟨hm, hact⟩
      rw [List.mem_range] at hm
      rcases hcase with h' | h'
      · rw [h'] at hact; exact Bool.true_eq_false.mp hact
      · omega
    rw [if_neg this]
    ring
  refine ⟨hne, hwin, hun, ?_, fun p => rfl⟩
  set g : Nat → Int := fun i =>
    if i ≠ w ∧ (r.players.getD i defaultPlayer).hasLeft = false
    then penaltyOf (r.players.getD i defaultPlayer) else 0 with hgdef
  have hgw : g w = 0 := by
    rw [hgdef]
    exact if_neg (fun hx => hx.1 rfl)
  have hdelta : ∀ i ∈ List.range r.players.length,
      (endRound r w).scores i - r.scores i =
        (if i = w then ((List.range r.players.length).map g).sum else -(g i)) := by
    intro i hi
    rw [List.mem_range] at hi
    by_cases hiw : i = w
    · subst hiw
      rw [if_pos rfl, hwin]
      ring
    · rw [if_neg hiw]
      by_cases hact : (r.players.getD i defaultPlayer).hasLeft = false
      · rw [hne i hi hiw hact, hgdef]
        simp only [if_pos (And.intro hiw hact)]
        ring
      · rw [hun i hiw (Or.inl (by revert hact; cases (r.players.getD i defaultPlayer).hasLeft
          <;> simp)), hgdef]
        simp only [if_neg (fun hx : i ≠ w ∧ _ => hact hx.2)]
        ring
  rw [List.map_congr_left hdelta,
    map_ite_sum_eq w (((List.range r.players.length).map g).sum) g hgw
      (List.range r.players.length) (List.nodup_range _) (List.mem_range.mpr hw)]
  ring

/-- **C4** — witness: the settlement theorem applied to a concrete
3-seat round won by seat 0, where seat 1 holds two cards including one
rank-2 (penalty `2 × 2¹ = 4`) and seat 2 holds one plain card
(penalty 1). -/
theorem endRound_settlement_witness :
    (endRound w4room 0).scores 1 =
        w4room.scores 1 - penaltyOf (w4room.players.getD 1 defaultPlayer) ∧
      (((List.range w4room.players.length).map
          (fun i => (endRound w4room 0).scores i - w4room.scores i)).sum = 0) ∧
      penaltyOf (w4room.players.getD 1 defaultPlayer) = 4 := by
  have h := endRound_settlement w4room 0 (by decide)
  exact ⟨h.1 1 (by decide) (by decide) (by decide), h.2.2.2.1, by decide⟩

/-- **C5** — counterexample.  Two room states that differ **only** in
another seat's concealed cards do *not* always produce identical views:
the view publishes each seat's `cardCount`, so removing a concealed card
of seat "b" (requester "a") changes the view.  `w5room2` is by
definition `w5room` with only seat 1's card list changed. -/
theorem sanitizeRoom_cardCount_leak :
    sanitizeRoom w5room (some "a") ≠ sanitizeRoom w5room2 (some "a") ∧
      w5room2 = { w5room with
        players := w5room.players.set 1
          { w5room.players.getD 1 defaultPlayer with cards := [] } } ∧
      (w5room.players.getD 1 defaultPlayer).id ≠ "a" := by
  refine ⟨?_, rfl, by decide⟩
  intro h
  have h2 := congrArg
    (fun sr : SRoom => (sr.players.getD 1 defaultSPlayer).cardCount) h
  have h3 : (1 : Nat) = 0 := h2
  cases h3

/-- **C5** (amended).  The sanitized view shows a seat's card list in
full exactly when that seat's id equals the requester's id, every other
seat being reduced to its card count plus an empty list; and two room
states that agree on everything except the concealed card *identities*
of seats other than the requester — in particular on every seat's card
**count** — produce identical views for the requester. -/
theorem sanitizeRoom_redaction :
    (∀ (room : Room) (req : Option String) (j : Nat), j < room.players.length →
      ((sanitizeRoom room req).players.getD j defaultSPlayer).cards =
        (match req with
         | some rid =>
           if (room.players.getD j defaultPlayer).id = rid
           then (room.players.getD j defaultPlayer).cards
           else []
         | none => []) ∧
      ((sanitizeRoom room req).players.getD j defaultSPlayer).cardCount =
        (room.players.getD j defaultPlayer).cards.length) ∧
    (∀ (r1 r2 : Room) (rid : String),
      r1.roomId = r2.roomId → r1.gameState = r2.gameState →
      r1.playerCount = r2.playerCount → r1.currentPlayer = r2.currentPlayer →
      r1.lastPlay = r2.lastPlay → r1.gameLog = r2.gameLog → r1.scores = r2.scores →
      r1.passCount = r2.passCount → r1.winner = r2.winner → r1.round = r2.round →
      r1.players.length = r2.players.length →
      (∀ j, j < r1.players.length →
        (r1.players.getD j defaultPlayer).id = (r2.players.getD j defaultPlayer).id ∧
        (r1.players.getD j defaultPlayer).name = (r2.players.getD j defaultPlayer).name ∧
        (r1.players.getD j defaultPlayer).isHost = (r2.players.getD j defaultPlayer).isHost ∧
        (r1.players.getD j defaultPlayer).isAI = (r2.players.getD j defaultPlayer).isAI ∧
        (r1.players.getD j defaultPlayer).hasLeft = (r2.players.getD j defaultPlayer).hasLeft ∧
        (r1.players.getD j defaultPlayer).cards.length
          = (r2.players.getD j defaultPlayer).cards.length ∧
        ((r1.players.getD j defaultPlayer).id = rid →
          (r1.players.getD j defaultPlayer).cards = (r2.players.getD j defaultPlayer).cards)) →
      sanitizeRoom r1 (some rid) = sanitizeRoom r2 (some rid)) := by
  constructor
  · intro room req j hj
    have hmap : (sanitizeRoom room req).players.getD j defaultSPlayer =
        sanitizePlayer req (room.players.getD j defaultPlayer) := by
      show (room.players.map (sanitizePlayer req)).getD j defaultSPlayer = _
      rw [List.getD_eq_getElem _ _ (by simpa using hj), List.getElem_map,
        List.getD_eq_getElem _ _ hj]
    rw [hmap]
    exact ⟨rfl, rfl⟩
  · intro r1 r2 rid hid hgs hpc hcp hlp hlog hscores hpass hwin hround hlen hpt
    have hplayers : r1.players.map (sanitizePlayer (some rid)) =
        r2.players.map (sanitizePlayer (some rid)) := by
      apply List.ext_getElem?
      intro n
      rw [List.getElem?_map, List.getElem?_map]
      by_cases hn : n < r1.players.length
      · have h1 : r1.players[n]? = some (r1.players.getD n defaultPlayer) := by
          rw [List.getD_eq_getElem _ _ hn, List.getElem?_eq_getElem hn]
        have h2 : r2.players[n]? = some (r2.players.getD n defaultPlayer) := by
          rw [List.getD_eq_getElem _ _ (hlen ▸ hn), List.getElem?_eq_getElem (hlen ▸ hn)]
        rw [h1, h2]
        show some (sanitizePlayer (some rid) (r1.players.getD n defaultPlayer)) =
          some (sanitizePlayer (some rid) (r2.players.getD n defaultPlayer))
        refine congrArg some ?_
        obtain ⟨hpid, hname, hhost, hai, hleft, hclen, hcards⟩ := hpt n hn
        unfold sanitizePlayer
        simp only [SPlayer.mk.injEq]
        refine ⟨hpid, hname, hclen, ?_, hhost, hai, hleft⟩
        by_cases hr : (r1.players.getD n defaultPlayer).id = rid
        · rw [if_pos hr, if_pos (hpid ▸ hr)]
          exact hcards hr
        · rw [if_neg hr, if_neg (fun hx => hr (by rw [hpid]; exact hx))]
      · rw [List.getElem?_eq_none (by omega), List.getElem?_eq_none (by omega)]
    simp only [sanitizeRoom, SRoom.mk.injEq]
    exact ⟨hid, hplayers, hgs, hpc, hcp, hlp, hlog, hscores, hpass, hwin, hround⟩

/-- **C5** — witness: for requester "a", seat "b" is reduced to a count
with an empty list, and replacing seat "b"'s concealed card by a
different card of the same count leaves the view unchanged. -/
theorem sanitizeRoom_redaction_witness :
    ((sanitizeRoom w5room (some "a")).players.getD 1 defaultSPlayer).cards = [] ∧
      ((sanitizeRoom w5room (some "a")).players.getD 1 defaultSPlayer).cardCount = 1 ∧
      sanitizeRoom w5room (some "a") = sanitizeRoom w5room3 (some "a") := by
  have h := sanitizeRoom_redaction
  refine ⟨?_, ?_, ?_⟩
  · exact ((h.1 w5room (some "a") 1 (by decide)).1).trans (by decide)
  · exact ((h.1 w5room (some "a") 1 (by decide)).2).trans (by decide)
  · exact h.2 w5room w5room3 "a" rfl rfl rfl rfl rfl rfl rfl rfl rfl rfl (by decide)
      (by decide)

/-- **C2**.  A play submitted by the seat at turn while the pile is
non-empty is accepted (no error emitted) iff the submitted cards form a
recognized hand of the pile's exact cardinality that compares strictly
greater than the pile's hand; with an empty pile any recognized hand is
accepted; the evaluator recognizes only sizes 1, 2, 3, 5 — size 4 is
never a hand. -/
theorem playCards_acceptance_characterization :
    (∀ (r : Room) (pid : String) (cs : List Card),
      r.gameState = GState.playing →
      jsFindIndex (fun p => p.id == pid) r.players = some r.currentPlayer →
      (r.players.getD r.currentPlayer defaultPlayer).hasLeft = false →
      r.lastPlay.hand.isSome →
      ((playCardsStep r pid cs).2 = none ↔
        ∃ h, analyzeHand cs = some h ∧ cs.length = r.lastPlay.cards.length ∧
          0 < compareHands (some h) r.lastPlay.hand)) ∧
    (∀ (r : Room) (pid : String) (cs : List Card),
      r.gameState = GState.playing →
      jsFindIndex (fun p => p.id == pid) r.players = some r.currentPlayer →
      (r.players.getD r.currentPlayer defaultPlayer).hasLeft = false →
      r.lastPlay.hand = none →
      ((playCardsStep r pid cs).2 = none ↔ ∃ h, analyzeHand cs = some h)) ∧
    (∀ (cs : List Card) (h : HandVal), analyzeHand cs = some h →
      cs.length = 1 ∨ cs.length = 2 ∨ cs.length = 3 ∨ cs.length = 5) ∧
    (∀ cs : List Card, cs.length = 4 → analyzeHand cs = none) := by
  have hstep : ∀ (r : Room) (pid : String) (cs : List Card),
      r.gameState = GState.playing →
      jsFindIndex (fun p => p.id == pid) r.players = some r.currentPlayer →
      (r.players.getD r.currentPlayer defaultPlayer).hasLeft = false →
      (playCardsStep r pid cs).2 =
        (if cs.length = 0 then some "카드를 선택해주세요."
         else if (analyzeHand cs).isNone then some "올바르지 않은 조합입니다."
         else if r.lastPlay.hand.isSome ∧ cs.length ≠ r.lastPlay.cards.length then
           some (toString r.lastPlay.cards.length ++ "장의 카드를 내야 합니다.")
         else if r.lastPlay.hand.isSome
             ∧ compareHands (some ((analyzeHand cs).getD defaultHandVal))
                 r.lastPlay.hand ≤ 0 then
           some "더 높은 조합을 내야 합니다."
         else none) := by
    intro r pid cs hgs hfind hleft
    unfold playCardsStep
    rw [if_neg (fun hh => hh hgs), hfind]
    simp only [Option.isNone_some, Bool.false_eq_true, if_false, Option.getD_some,
      if_neg (fun hh : r.currentPlayer ≠ r.currentPlayer => hh rfl), hleft]
    by_cases hcs : cs.length = 0
    · rw [if_pos hcs, if_pos hcs]
    · rw [if_neg hcs, if_neg hcs]
      by_cases hA : (analyzeHand cs).isNone
      · rw [if_pos hA, if_pos hA]
      · rw [if_neg hA, if_neg hA]
        by_cases h1 : r.lastPlay.hand.isSome ∧ cs.length ≠ r.lastPlay.cards.length
        · rw [if_pos h1, if_pos h1]
        · rw [if_neg h1, if_neg h1]
          by_cases h2 : r.lastPlay.hand.isSome
              ∧ compareHands (some ((analyzeHand cs).getD defaultHandVal))
                  r.lastPlay.hand ≤ 0
          · rw [if_pos h2, if_pos h2]
          · rw [if_neg h2, if_neg h2]
  refine ⟨?_, ?_, ?_, ?_⟩
  · intro r pid cs hgs hfind hleft hpile
    rw [hstep r pid cs hgs hfind hleft]
    by_cases hcs : cs.length = 0
    · rw [if_pos hcs, List.length_eq_zero.mp hcs]
      constructor
      · intro hx
        exact absurd hx (by simp)
      · rintro ⟨hand, hA, _⟩
        exact absurd (hA : (analyzeHand []) = some hand) (by simp [analyzeHand])
    · rw [if_neg hcs]
      cases hA : analyzeHand cs with
      | none => simp
      | some hand =>
        simp only [Option.isNone_some, Bool.false_eq_true, if_false, Option.getD_some]
        constructor
        · intro hacc
          by_cases h1 : r.lastPlay.hand.isSome ∧ cs.length ≠ r.lastPlay.cards.length
          · rw [if_pos h1] at hacc
            exact absurd hacc (by simp)
          · rw [if_neg h1] at hacc
            by_cases h2 : r.lastPlay.hand.isSome
                ∧ compareHands (some hand) r.lastPlay.hand ≤ 0
            · rw [if_pos h2] at hacc
              exact absurd hacc (by simp)
            · refine ⟨hand, rfl, ?_, ?_⟩
              · by_contra hne
                exact h1 ⟨hpile, hne⟩
              · by_contra hle
                exact h2 ⟨hpile, by omega⟩
        · rintro ⟨hand2, hA2, hlen, hcmp⟩
          have hh : hand = hand2 := Option.some.inj hA2
          subst hh
          rw [if_neg (fun hx => hx.2 hlen), if_neg (fun hx => by omega)]
  · intro r pid cs hgs hfind hleft hpile
    have hns : ¬r.lastPlay.hand.isSome = true := by
      rw [hpile]
      simp
    rw [hstep r pid cs hgs hfind hleft]
    by_cases hcs : cs.length = 0
    · rw [if_pos hcs, List.length_eq_zero.mp hcs]
      constructor
      · intro hx
        exact absurd hx (by simp)
      · rintro ⟨hand, hA⟩
        exact absurd (hA : (analyzeHand []) = some hand) (by simp [analyzeHand])
    · rw [if_neg hcs]
      cases hA : analyzeHand cs with
      | none => simp
      | some hand =>
        simp only [Option.isNone_some, Bool.false_eq_true, if_false]
        rw [if_neg (fun hx => hns hx.1), if_neg (fun hx => hns hx.1)]
        exact ⟨fun _ => ⟨hand, rfl⟩, fun _ => rfl⟩
  · intro cs h heq
    match cs with
    | [] => exact absurd heq (by simp [analyzeHand])
    | [a] => exact Or.inl rfl
    | [a, b] => exact Or.inr (Or.inl rfl)
    | [a, b, c] => exact Or.inr (Or.inr (Or.inl rfl))
    | [a, b, c, d] => exact absurd heq (by simp [analyzeHand])
    | [a, b, c, d, e] => exact Or.inr (Or.inr (Or.inr rfl))
    | a :: b :: c :: d :: e :: f :: t => exact absurd heq (by simp [analyzeHand])
  · intro cs hlen
    match cs with
    | [a, b, c, d] => rfl
    | [] => simp at hlen
    | [a] => simp at hlen
    | [a, b] => simp at hlen
    | [a, b, c] => simp at hlen
    | a :: b :: c :: d :: e :: t => simp at hlen

theorem getD_set_self {l : List α} {i : Nat} (h : i < l.length) (a d : α) :
    (l.set i a).getD i d = a := by
  rw [List.getD_eq_getElem?_getD, List.getElem?_set, if_pos rfl, if_pos h]
  rfl

theorem getD_set_ne {l : List α} {i j : Nat} (h : i ≠ j) (a d : α) :
    (l.set i a).getD j d = l.getD j d := by
  rw [List.getD_eq_getElem?_getD, List.getElem?_set, if_neg h, ← List.getD_eq_getElem?_getD]

theorem jsFindIndex_set_id (pid : String) (ps : List Player) (i : Nat) (alt : List Card) :
    jsFindIndex (fun p => p.id == pid)
        (ps.set i { ps.getD i defaultPlayer with cards := alt }) =
      jsFindIndex (fun p => p.id == pid) ps := by
  induction ps generalizing i with
  | nil => rfl
  | cons a t ih =>
    cases i with
    | zero =>
      show jsFindIndex _ ({ a with cards := alt } :: t) = _
      simp only [jsFindIndex]
    | succ i =>
      show jsFindIndex _ (a :: t.set i { t.getD i defaultPlayer with cards := alt }) = _
      simp only [jsFindIndex, ih i]

/-- The unfolding of `playCardsStep` on an accepted play. -/
theorem playCardsStep_success_eq (r : Room) (pid : String) (cs : List Card)
    (hgs : r.gameState = GState.playing)
    (hfind : jsFindIndex (fun p => p.id == pid) r.players = some r.currentPlayer)
    (hleft : (r.players.getD r.currentPlayer defaultPlayer).hasLeft = false)
    (hand : HandVal) (hA : analyzeHand cs = some hand)
    (h1 : ¬(r.lastPlay.hand.isSome ∧ cs.length ≠ r.lastPlay.cards.length))
    (h2 : ¬(r.lastPlay.hand.isSome ∧ compareHands (some hand) r.lastPlay.hand ≤ 0)) :
    playCardsStep r pid cs =
      (if ((r.players.getD r.currentPlayer defaultPlayer).cards.filter
            (fun c => !(cs.any (fun s => s.id == c.id)))).length = 0
       then endRound (playedRoomBase r cs hand) r.currentPlayer
       else { playedRoomBase r cs hand with
                currentPlayer :=
                  getNextActivePlayer (playedRoomBase r cs hand) r.currentPlayer },
       none) := by
  have hcs : ¬cs.length = 0 := by
    intro hz
    rw [List.length_eq_zero.mp hz] at hA
    exact Option.noConfusion (hA : (none : Option HandVal) = some hand)
  unfold playCardsStep
  rw [if_neg (fun hh => hh hgs), hfind]
  simp only [Option.isNone_some, Bool.false_eq_true, if_false, Option.getD_some,
    if_neg (fun hh : r.currentPlayer ≠ r.currentPlayer => hh rfl), hleft, if_neg hcs, hA]
  rw [if_neg h1, if_neg h2]
  simp only [playedRoomBase, hleft]

/-- Play validation reads only the turn data, the submitted cards and the
pile: the emitted error (or acceptance) is unchanged under any data that
agrees on those. -/
theorem playCardsStep_snd_congr (r' r : Room) (pid : String) (cs : List Card)
    (hgs : r'.gameState = r.gameState)
    (hfi : jsFindIndex (fun p => p.id == pid) r'.players =
      jsFindIndex (fun p => p.id == pid) r.players)
    (hcur : r'.currentPlayer = r.currentPlayer)
    (hleft : ∀ j, (r'.players.getD j defaultPlayer).hasLeft =
      (r.players.getD j defaultPlayer).hasLeft)
    (hlp : r'.lastPlay = r.lastPlay) :
    (playCardsStep r' pid cs).2 = (playCardsStep r pid cs).2 := by
  unfold playCardsStep
  rw [hgs, hfi, hcur, hlp]
  by_cases h0 : r.gameState ≠ GState.playing
  · rw [if_pos h0, if_pos h0]
  · rw [if_neg h0, if_neg h0]
    cases hfind : jsFindIndex (fun p => p.id == pid) r.players with
    | none => rfl
    | some j =>
      simp only [Option.isNone_some, Bool.false_eq_true, if_false, Option.getD_some]
      by_cases hj : j ≠ r.currentPlayer
      · rw [if_pos hj, if_pos hj]
      · rw [if_neg hj, if_neg hj, hleft j]
        by_cases hl : (r.players.getD j defaultPlayer).hasLeft
        · rw [if_pos hl, if_pos hl]
        · rw [if_neg hl, if_neg hl]
          by_cases hcl : cs.length = 0
          · rw [if_pos hcl, if_pos hcl]
          · rw [if_neg hcl, if_neg hcl]
            by_cases hA : (analyzeHand cs).isNone
            · rw [if_pos hA, if_pos hA]
            · rw [if_neg hA, if_neg hA]
              by_cases h1 : r.lastPlay.hand.isSome ∧ cs.length ≠ r.lastPlay.cards.length
              · rw [if_pos h1, if_pos h1]
              · rw [if_neg h1, if_neg h1]
                by_cases h2 : r.lastPlay.hand.isSome
                    ∧ compareHands (some ((analyzeHand cs).getD defaultHandVal))
                        r.lastPlay.hand ≤ 0
                · rw [if_pos h2, if_pos h2]
                · rw [if_neg h2, if_neg h2]

/-- **C7**.  Play validation never checks that the submitted cards are in
the submitting seat's stored hand: an accepted play installs exactly the
submitted cards as the pile, hand removal deletes only stored cards whose
ids occur among the submitted ones (so a play of entirely foreign cards
leaves the stored hand unchanged), and the accept/reject outcome is
unchanged if the seat's stored hand is replaced by anything else. -/
theorem playCards_no_ownership_check :
    (∀ (r : Room) (pid : String) (cs : List Card),
      r.gameState = GState.playing →
      jsFindIndex (fun p => p.id == pid) r.players = some r.currentPlayer →
      (r.players.getD r.currentPlayer defaultPlayer).hasLeft = false →
      (playCardsStep r pid cs).2 = none →
      ((playCardsStep r pid cs).1.lastPlay.cards = cs ∧
        (playCardsStep r pid cs).1.lastPlay.player = some r.currentPlayer ∧
        ((playCardsStep r pid cs).1.players.getD r.currentPlayer defaultPlayer).cards =
          (r.players.getD r.currentPlayer defaultPlayer).cards.filter
            (fun c => !(cs.any (fun s => s.id == c.id))) ∧
        ((∀ c ∈ (r.players.getD r.currentPlayer defaultPlayer).cards,
            ∀ s ∈ cs, ¬s.id = c.id) →
          ((playCardsStep r pid cs).1.players.getD r.currentPlayer defaultPlayer).cards =
            (r.players.getD r.currentPlayer defaultPlayer).cards))) ∧
    (∀ (r : Room) (i : Nat) (alt : List Card) (pid : String) (cs : List Card),
      i < r.players.length →
      (playCardsStep (setPlayerCards r i alt) pid cs).2 = (playCardsStep r pid cs).2) := by
  constructor
  · intro r pid cs hgs hfind hleft hacc
    have hcur : r.currentPlayer < r.players.length := jsFindIndex_lt_length hfind
    have hchar := playCards_acceptance_characterization
    have hmain : ∃ hand, analyzeHand cs = some hand ∧
        ¬(r.lastPlay.hand.isSome ∧ cs.length ≠ r.lastPlay.cards.length) ∧
        ¬(r.lastPlay.hand.isSome ∧ compareHands (some hand) r.lastPlay.hand ≤ 0) := by
      cases hp : r.lastPlay.hand with
      | none =>
        obtain ⟨hand, hA⟩ := (hchar.2.1 r pid cs hgs hfind hleft hp).mp hacc
        refine ⟨hand, hA, ?_, ?_⟩
        · rintro ⟨hx, _⟩
          exact Bool.noConfusion hx
        · rintro ⟨hx, _⟩
          exact Bool.noConfusion hx
      | some ph =>
        obtain ⟨hand, hA, hlen, hcmp⟩ :=
          (hchar.1 r pid cs hgs hfind hleft (by rw [hp]; rfl)).mp hacc
        rw [hp] at hcmp
        exact ⟨hand, hA, fun hx => hx.2 hlen, fun hx => by omega⟩
    obtain ⟨hand, hA, h1, h2⟩ := hmain
    rw [playCardsStep_success_eq r pid cs hgs hfind hleft hand hA h1 h2]
    refine ⟨?_, ?_, ?_, ?_⟩
    · by_cases hz : ((r.players.getD r.currentPlayer defaultPlayer).cards.filter
          (fun c => !(cs.any (fun s => s.id == c.id)))).length = 0
      · rw [if_pos hz]
        rfl
      · rw [if_neg hz]
        rfl
    · by_cases hz : ((r.players.getD r.currentPlayer defaultPlayer).cards.filter
          (fun c => !(cs.any (fun s => s.id == c.id)))).length = 0
      · rw [if_pos hz]
        rfl
      · rw [if_neg hz]
        rfl
    · by_cases hz : ((r.players.getD r.currentPlayer defaultPlayer).cards.filter
          (fun c => !(cs.any (fun s => s.id == c.id)))).length = 0
      · rw [if_pos hz]
        show ((r.players.set r.currentPlayer
          { r.players.getD r.currentPlayer defaultPlayer with
              cards := (r.players.getD r.currentPlayer defaultPlayer).cards.filter
                (fun c => !(cs.any (fun s => s.id == c.id))) }).getD
            r.currentPlayer defaultPlayer).cards = _
        rw [getD_set_self hcur]
      · rw [if_neg hz]
        show ((r.players.set r.currentPlayer
          { r.players.getD r.currentPlayer defaultPlayer with
              cards := (r.players.getD r.currentPlayer defaultPlayer).cards.filter
                (fun c => !(cs.any (fun s => s.id == c.id))) }).getD
            r.currentPlayer defaultPlayer).cards = _
        rw [getD_set_self hcur]
    · intro hforeign
      have hfilter : (r.players.getD r.currentPlayer defaultPlayer).cards.filter
          (fun c => !(cs.any (fun s => s.id == c.id))) =
          (r.players.getD r.currentPlayer defaultPlayer).cards := by
        apply List.filter_eq_self.mpr
        intro c hc
        simp only [Bool.not_eq_true', List.any_eq_false]
        intro s hs
        exact fun hbeq => hforeign c hc s hs (eq_of_beq hbeq)
      by_cases hz : ((r.players.getD r.currentPlayer defaultPlayer).cards.filter
          (fun c => !(cs.any (fun s => s.id == c.id)))).length = 0
      · rw [if_pos hz]
        show ((r.players.set r.currentPlayer
          { r.players.getD r.currentPlayer defaultPlayer with
              cards := (r.players.getD r.currentPlayer defaultPlayer).cards.filter
                (fun c => !(cs.any (fun s => s.id == c.id))) }).getD
            r.currentPlayer defaultPlayer).cards = _
        rw [getD_set_self hcur]
        exact hfilter
      · rw [if_neg hz]
        show ((r.players.set r.currentPlayer
          { r.players.getD r.currentPlayer defaultPlayer with
              cards := (r.players.getD r.currentPlayer defaultPlayer).cards.filter
                (fun c => !(cs.any (fun s => s.id == c.id))) }).getD
            r.currentPlayer defaultPlayer).cards = _
        rw [getD_set_self hcur]
        exact hfilter
  · intro r i alt pid cs hi
    apply playCardsStep_snd_congr
    · rfl
    · exact jsFindIndex_set_id pid r.players i alt
    · rfl
    · intro j
      by_cases hij : i = j
      · subst hij
        show ((r.players.set i { r.players.getD i defaultPlayer with cards := alt }).getD
          i defaultPlayer).hasLeft = _
        rw [getD_set_self hi]
      · show ((r.players.set i { r.players.getD i defaultPlayer with cards := alt }).getD
          j defaultPlayer).hasLeft = _
        rw [getD_set_ne hij]
    · rfl

/-- **C7** — witness: seat "a" (to lead, holding only a cloud-4) submits
the star-9 it does not hold; the play is accepted, the pile becomes
exactly the submitted card and the stored hand is unchanged; and
replacing the stored hand entirely does not change the accept decision. -/
theorem playCards_no_ownership_check_witness :
    (playCardsStep w7room "a" [mkCard Symbol.star 9]).2 = none ∧
      (playCardsStep w7room "a" [mkCard Symbol.star 9]).1.lastPlay.cards =
        [mkCard Symbol.star 9] ∧
      ((playCardsStep w7room "a" [mkCard Symbol.star 9]).1.players.getD 0
        defaultPlayer).cards = [mkCard Symbol.cloud 4] ∧
      (playCardsStep (setPlayerCards w7room 0 []) "a" [mkCard Symbol.star 9]).2 =
        (playCardsStep w7room "a" [mkCard Symbol.star 9]).2 := by
  have h := playCards_no_ownership_check.1 w7room "a" [mkCard Symbol.star 9]
    (by decide) (by decide) (by decide) (by decide)
  refine ⟨by decide, h.1, ?_, playCards_no_ownership_check.2 w7room 0 [] "a"
    [mkCard Symbol.star 9] (by decide)⟩
  exact (h.2.2.2 (by decide)).trans (by decide)

/-- **C2** — witness: in the concrete mid-trick room, seat "b"'s star-3
single beats the cloud-3 pile and is accepted, while as the leader of an
empty pile the same submission is accepted unconditionally. -/
theorem playCards_acceptance_characterization_witness :
    (playCardsStep w2room "b" [mkCard Symbol.star 3]).2 = none ∧
      (playCardsStep w2openRoom "b" [mkCard Symbol.star 3]).2 = none ∧
      analyzeHand [mkCard Symbol.cloud 3, mkCard Symbol.cloud 4, mkCard Symbol.cloud 5,
        mkCard Symbol.cloud 6] = none := by
  refine ⟨?_, ?_, playCards_acceptance_characterization.2.2.2 _ (by decide)⟩
  · exact (playCards_acceptance_characterization.1 w2room "b" [mkCard Symbol.star 3]
      (by decide) (by decide) (by decide) (by decide)).mpr
      ⟨{ rank := HAND_RANKS.SINGLE, highCard := some (mkCard Symbol.star 3),
         number := none, cards := none }, by decide, by decide, by decide⟩
  · exact (playCards_acceptance_characterization.2.1 w2openRoom "b" [mkCard Symbol.star 3]
      (by decide) (by decide) (by decide) (by decide)).mpr
      ⟨{ rank := HAND_RANKS.SINGLE, highCard := some (mkCard Symbol.star 3),
         number := none, cards := none }, by decide⟩

/-- The unfolding of `passStep` on a legal pass (playing room, the
current active seat, non-empty pile). -/
theorem passStep_legal_eq (r : Room) (pid : String)
    (hgs : r.gameState = GState.playing)
    (hfind : jsFindIndex (fun p => p.id == pid) r.players = some r.currentPlayer)
    (hleft : (r.players.getD r.currentPlayer defaultPlayer).hasLeft = false)
    (hne : r.lastPlay.cards.length ≠ 0) :
    passStep r pid =
      (if (r.players.filter (fun p => !p.hasLeft)).length - 1 ≤ r.passCount + 1
       then passClearRoom r else passAdvanceRoom r, none) := by
  unfold passStep
  rw [if_neg (fun hh => hh hgs), hfind]
  simp only [Option.isNone_some, Bool.false_eq_true, if_false, Option.getD_some,
    if_neg (fun hh : r.currentPlayer ≠ r.currentPlayer => hh rfl), hleft, if_neg hne]
  rfl

/-- Invariant of a run of legal passes below the clear threshold: the
seats, game state and pile are untouched, the pass counter counts the
passes, and the turn stays on an in-range active seat. -/
theorem pass_run_invariant (r : Room)
    (hnodup : (r.players.map Player.id).Nodup)
    (hgs : r.gameState = GState.playing)
    (hne : r.lastPlay.cards.length ≠ 0)
    (hpc : r.passCount = 0)
    (hA : 2 ≤ (r.players.filter (fun p => !p.hasLeft)).length)
    (hcur : r.currentPlayer < r.players.length)
    (hact : (r.players.getD r.currentPlayer defaultPlayer).hasLeft = false) :
    ∀ k, k ≤ (r.players.filter (fun p => !p.hasLeft)).length - 2 →
      (humanPassIter^[k] r).players = r.players ∧
      (humanPassIter^[k] r).gameState = GState.playing ∧
      (humanPassIter^[k] r).lastPlay = r.lastPlay ∧
      (humanPassIter^[k] r).passCount = k ∧
      (humanPassIter^[k] r).currentPlayer < r.players.length ∧
      (r.players.getD (humanPassIter^[k] r).currentPlayer defaultPlayer).hasLeft = false := by
  intro k
  induction k with
  | zero => intro _; exact ⟨rfl, hgs, rfl, hpc, hcur, hact⟩
  | succ k ih =>
    intro hk
    obtain ⟨hpl, hgsk, hlpk, hpck, hcurk, hactk⟩ := ih (by omega)
    set rk := humanPassIter^[k] r with hrk
    have hfind : jsFindIndex (fun p => p.id == (rk.players.getD rk.currentPlayer
        defaultPlayer).id) rk.players = some rk.currentPlayer :=
      jsFindIndex_id (by rw [hpl]; exact hnodup) (by rw [hpl]; exact hcurk)
    have hleftk : (rk.players.getD rk.currentPlayer defaultPlayer).hasLeft = false := by
      rw [hpl]; exact hactk
    have hnek : rk.lastPlay.cards.length ≠ 0 := by rw [hlpk]; exact hne
    have hstep := passStep_legal_eq rk _ hgsk hfind hleftk hnek
    have hcond : ¬ ((rk.players.filter (fun p => !p.hasLeft)).length - 1 ≤
        rk.passCount + 1) := by
      rw [hpl, hpck]
      omega
    have hiter : humanPassIter^[k + 1] r = passAdvanceRoom rk := by
      rw [Function.iterate_succ_apply']
      show (passStep rk ((rk.players.getD rk.currentPlayer defaultPlayer).id)).1 = _
      rw [hstep, if_neg hcond]
    have hex : ∃ p ∈ rk.players, p.hasLeft = false := by
      apply exists_active_of_filter
      rw [hpl]
      omega
    have hnext := getNextActivePlayer_active rk rk.currentPlayer hex
    rw [hpl] at hnext
    refine ⟨?_, ?_, ?_, ?_, ?_, ?_⟩ <;> rw [hiter]
    · exact hpl
    · exact hgsk
    · exact hlpk
    · show rk.passCount + 1 = k + 1
      omega
    · exact hnext.2
    · exact hnext.1

/-- **C3**.  Pass-cycle property: from a playing state right after seat
`S` played the pile (pass counter 0, the turn on an active seat, at least
two active seats), every one of the first `activeSeatCount - 2` passes
merely increments the counter, leaves the pile and the seats untouched
and keeps the turn on an active seat, and the `activeSeatCount - 1`-st
pass clears the pile, resets the counter and hands the lead to `S`. -/
theorem pass_cycle_property (r : Room) (S : Nat)
    (hnodup : (r.players.map Player.id).Nodup)
    (hgs : r.gameState = GState.playing)
    (hS : r.lastPlay.player = some S)
    (hne : r.lastPlay.cards.length ≠ 0)
    (hpc : r.passCount = 0)
    (hA : 2 ≤ (r.players.filter (fun p => !p.hasLeft)).length)
    (hcur : r.currentPlayer < r.players.length)
    (hact : (r.players.getD r.currentPlayer defaultPlayer).hasLeft = false) :
    (∀ k, k ≤ (r.players.filter (fun p => !p.hasLeft)).length - 2 →
      (humanPassIter^[k] r).lastPlay = r.lastPlay ∧
      (humanPassIter^[k] r).passCount = k ∧
      (humanPassIter^[k] r).players = r.players ∧
      (r.players.getD (humanPassIter^[k] r).currentPlayer defaultPlayer).hasLeft = false) ∧
    ((humanPassIter^[(r.players.filter (fun p => !p.hasLeft)).length - 1] r).lastPlay =
        emptyLastPlay ∧
      (humanPassIter^[(r.players.filter (fun p => !p.hasLeft)).length - 1] r).passCount = 0 ∧
      (humanPassIter^[(r.players.filter (fun p => !p.hasLeft)).length - 1] r).currentPlayer
        = S) := by
  have hinv := pass_run_invariant r hnodup hgs hne hpc hA hcur hact
  constructor
  · intro k hk
    obtain ⟨hpl, _, hlpk, hpck, _, hactk⟩ := hinv k hk
    exact ⟨hlpk, hpck, hpl, hactk⟩
  · set A := (r.players.filter (fun p => !p.hasLeft)).length with hAdef
    obtain ⟨hpl, hgsm, hlpm, hpcm, hcurm, hactm⟩ := hinv (A - 2) (le_refl _)
    set rm := humanPassIter^[A - 2] r with hrm
    have hfind : jsFindIndex (fun p => p.id == (rm.players.getD rm.currentPlayer
        defaultPlayer).id) rm.players = some rm.currentPlayer :=
      jsFindIndex_id (by rw [hpl]; exact hnodup) (by rw [hpl]; exact hcurm)
    have hleftm : (rm.players.getD rm.currentPlayer defaultPlayer).hasLeft = false := by
      rw [hpl]; exact hactm
    have hnem : rm.lastPlay.cards.length ≠ 0 := by rw [hlpm]; exact hne
    have hstep := passStep_legal_eq rm _ hgsm hfind hleftm hnem
    have hcond : (rm.players.filter (fun p => !p.hasLeft)).length - 1 ≤
        rm.passCount + 1 := by
      rw [hpl, hpcm]
      omega
    have hA1 : A - 1 = (A - 2) + 1 := by omega
    have hiter : humanPassIter^[A - 1] r = passClearRoom rm := by
      rw [hA1, Function.iterate_succ_apply']
      show (passStep rm ((rm.players.getD rm.currentPlayer defaultPlayer).id)).1 = _
      rw [hstep, if_pos hcond]
    rw [hiter]
    refine ⟨rfl, rfl, ?_⟩
    show rm.lastPlay.player.getD 0 = S
    rw [hlpm, hS]
    rfl

/-- **C3** — witness: in the three-active-seat room where seat 0 played
the pile, the first pass only increments the counter and the second
clears the pile and makes seat 0 the current player again. -/
theorem pass_cycle_property_witness :
    (humanPassIter^[1] w3room).passCount = 1 ∧
    (humanPassIter^[1] w3room).lastPlay = w3room.lastPlay ∧
    (humanPassIter^[2] w3room).lastPlay = emptyLastPlay ∧
    (humanPassIter^[2] w3room).passCount = 0 ∧
    (humanPassIter^[2] w3room).currentPlayer = 0 := by
  have h := pass_cycle_property w3room 0 (by decide) rfl rfl (by decide) rfl (by decide)
    (by decide) (by decide)
  exact ⟨(h.1 1 (by decide)).2.1, (h.1 1 (by decide)).1, h.2.1, h.2.2.1, h.2.2.2⟩

/-- **C6**.  The claimed invariant fails: in the concrete trace where
seat 0 leads a single, then leaves the game, and seat 1 passes, the
pile-clear branch of the `pass` handler hands the lead back to the pile
owner without checking departure, so the room is still playing with two
active seats while `currentPlayer` points at the departed seat 0. -/
theorem pass_clear_inactive_leader_bug :
    ((playCardsStep c6room "a" [mkCard Symbol.cloud 3]).2 = none ∧
      c6r1.gameState = GState.playing ∧ c6r1.currentPlayer = 1) ∧
    ((c6r2.players.getD 0 defaultPlayer).hasLeft = true ∧ c6r2.currentPlayer = 1 ∧
      (c6r2.players.getD 1 defaultPlayer).hasLeft = false ∧
      c6r2.lastPlay.cards.length = 1) ∧
    ((passStep c6r2 "b").2 = none ∧
      c6r3.gameState = GState.playing ∧
      0 < (c6r3.players.filter (fun p => !p.hasLeft)).length ∧
      c6r3.currentPlayer = 0 ∧
      (c6r3.players.getD c6r3.currentPlayer defaultPlayer).hasLeft = true) := by
  decide

/-- **C9** — counterexample: seat "c" passes out of turn in a playing
room with a non-empty pile; the handler rejects the pass but emits no
error at all (silent `return`), contradicting the claim that every
rejected submission is reported back to the submitting actor. -/
theorem pass_wrong_turn_silent_counterexample :
    w9room.gameState = GState.playing ∧
    jsFindIndex (fun p => p.id == "c") w9room.players = some 2 ∧
    w9room.currentPlayer = 1 ∧
    0 < w9room.lastPlay.cards.length ∧
    passStep w9room "c" = (w9room, none) := by
  exact ⟨rfl, by decide, rfl, by decide, rfl⟩

/-- **C9** (amended).  Every rejected `playCards` submission and the
empty-pile pass rejection leave the room state unchanged and emit the
error only to the submitter; but the other invalid passes (here: a pass
by a seat whose index is not the current turn) are dropped silently,
with the state unchanged and no error event at all. -/
theorem rejected_inputs_leave_state_unchanged :
    (∀ (r : Room) (pid : String) (cs : List Card) (e : String),
      (playCardsStep r pid cs).2 = some e → (playCardsStep r pid cs).1 = r) ∧
    (∀ (r : Room) (pid : String) (e : String),
      (passStep r pid).2 = some e → (passStep r pid).1 = r) ∧
    (∀ (r : Room) (pid : String) (j : Nat),
      r.gameState = GState.playing →
      jsFindIndex (fun p => p.id == pid) r.players = some j →
      j ≠ r.currentPlayer →
      passStep r pid = (r, none)) := by
  refine ⟨?_, ?_, ?_⟩
  · intro r pid cs e
    unfold playCardsStep
    by_cases h0 : r.gameState ≠ GState.playing
    · rw [if_pos h0]; intro _; rfl
    · rw [if_neg h0]
      cases hfind : jsFindIndex (fun p => p.id == pid) r.players with
      | none => intro _; rfl
      | some j =>
        simp only [Option.isNone_some, Bool.false_eq_true, if_false, Option.getD_some]
        by_cases hj : j ≠ r.currentPlayer
        · rw [if_pos hj]; intro _; rfl
        · rw [if_neg hj]
          by_cases hl : (r.players.getD j defaultPlayer).hasLeft
          · rw [if_pos hl]; intro _; rfl
          · rw [if_neg hl]
            by_cases hcl : cs.length = 0
            · rw [if_pos hcl]; intro _; rfl
            · rw [if_neg hcl]
              by_cases hA : (analyzeHand cs).isNone
              · rw [if_pos hA]; intro _; rfl
              · rw [if_neg hA]
                by_cases h1 : r.lastPlay.hand.isSome ∧ cs.length ≠ r.lastPlay.cards.length
                · rw [if_pos h1]; intro _; rfl
                · rw [if_neg h1]
                  by_cases h2 : r.lastPlay.hand.isSome ∧
                      compareHands (some ((analyzeHand cs).getD defaultHandVal))
                        r.lastPlay.hand ≤ 0
                  · rw [if_pos h2]; intro _; rfl
                  · rw [if_neg h2]
                    intro h
                    simp at h
  · intro r pid e
    unfold passStep
    by_cases h0 : r.gameState ≠ GState.playing
    · rw [if_pos h0]; intro h; simp at h
    · rw [if_neg h0]
      cases hfind : jsFindIndex (fun p => p.id == pid) r.players with
      | none => intro h; simp at h
      | some j =>
        simp only [Option.isNone_some, Bool.false_eq_true, if_false, Option.getD_some]
        by_cases hj : j ≠ r.currentPlayer
        · rw [if_pos hj]; intro h; simp at h
        · rw [if_neg hj]
          by_cases hl : (r.players.getD j defaultPlayer).hasLeft
          · rw [if_pos hl]; intro h; simp at h
          · rw [if_neg hl]
            by_cases hcl : r.lastPlay.cards.length = 0
            · rw [if_pos hcl]; intro _; rfl
            · rw [if_neg hcl]
              intro h
              simp at h
  · intro r pid j hgs hfind hj
    unfold passStep
    rw [if_neg (fun hh => hh hgs), hfind]
    simp only [Option.isNone_some, Bool.false_eq_true, if_false, Option.getD_some]
    rw [if_pos hj]

/-- **C9** — witness: a wrong-turn play is rejected with the state
unchanged, an empty-pile pass is rejected with the state unchanged, and
a wrong-turn pass is rejected silently. -/
theorem rejected_inputs_leave_state_unchanged_witness :
    (playCardsStep w9room "c" [mkCard Symbol.moon 6]).1 = w9room ∧
    (passStep { w9room with lastPlay := emptyLastPlay } "b").1 =
      { w9room with lastPlay := emptyLastPlay } ∧
    passStep w9room "a" = (w9room, none) :=
  ⟨rejected_inputs_leave_state_unchanged.1 w9room "c" [mkCard Symbol.moon 6]
      "당신의 턴이 아닙니다." rfl,
    rejected_inputs_leave_state_unchanged.2.1 { w9room with lastPlay := emptyLastPlay } "b"
      "첫 턴에는 패스할 수 없습니다." rfl,
    rejected_inputs_leave_state_unchanged.2.2 w9room "a" 0 rfl (by decide) (by decide)⟩

/-- If no combination drawn from the hand with the pile's cardinality
beats the pile, the AI's candidate enumeration is empty (every candidate
`findPossibleAiPlays` tries is such a combination). -/
theorem findPossibleAiPlays_eq_nil (cards : List Card) (lp : LastPlay) (n : Nat)
    (H : ∀ combo : List Card, combo.Subperm cards → combo.length = lp.cards.length →
      aiBeatsOption lp combo = none) :
    findPossibleAiPlays cards lp n = [] := by
  have h1 : lp.cards.length = 1 →
      cards.filterMap (fun card => aiBeatsOption lp [card]) = [] := by
    intro ht
    rw [List.filterMap_eq_nil_iff]
    intro card hc
    exact H [card] (List.subperm_of_subset (by simp) (by simpa using hc)) (by simp [ht])
  have h2 : lp.cards.length = 2 → (numberGroupsOf cards).filterMap (fun group =>
      if 2 ≤ group.length then aiBeatsOption lp (group.take 2) else none) = [] := by
    intro ht
    rw [List.filterMap_eq_nil_iff]
    intro g hg
    by_cases hlen : 2 ≤ g.length
    · rw [if_pos hlen]
      simp only [numberGroupsOf] at hg
      obtain ⟨m, hm, heq⟩ := List.mem_map.mp hg
      have hsub : g.Sublist cards := by rw [← heq]; exact List.filter_sublist _
      apply H
      · exact ((List.take_sublist 2 g).trans hsub).subperm
      · rw [List.length_take, ht]
        exact Nat.min_eq_left hlen
    · rw [if_neg hlen]
  have h3 : lp.cards.length = 3 → (numberGroupsOf cards).filterMap (fun group =>
      if 3 ≤ group.length then aiBeatsOption lp (group.take 3) else none) = [] := by
    intro ht
    rw [List.filterMap_eq_nil_iff]
    intro g hg
    by_cases hlen : 3 ≤ g.length
    · rw [if_pos hlen]
      simp only [numberGroupsOf] at hg
      obtain ⟨m, hm, heq⟩ := List.mem_map.mp hg
      have hsub : g.Sublist cards := by rw [← heq]; exact List.filter_sublist _
      apply H
      · exact ((List.take_sublist 3 g).trans hsub).subperm
      · rw [List.length_take, ht]
        exact Nat.min_eq_left hlen
    · rw [if_neg hlen]
  have h5 : lp.cards.length = 5 → (findAllFiveCardCombos cards).filterMap
      (fun combo => aiBeatsOption lp combo) = [] := by
    intro ht
    rw [List.filterMap_eq_nil_iff]
    intro combo hc
    unfold findAllFiveCardCombos at hc
    by_cases hl : 5 ≤ cards.length
    · rw [if_pos hl] at hc
      obtain ⟨g, hg, hgeq⟩ := List.mem_map.mp hc
      have hgf := List.mem_filter.mp hg
      have hg5 : 5 ≤ g.length := by simpa using hgf.2
      have hgsub : g.Sublist cards := by
        simp only [symbolGroupsOf] at hgf
        obtain ⟨s, hs, heq⟩ := List.mem_map.mp hgf.1
        rw [← heq]
        exact List.filter_sublist _
      apply H
      · rw [← hgeq]
        exact ((List.take_sublist 5 g).trans hgsub).subperm
      · rw [← hgeq, List.length_take, ht]
        exact Nat.min_eq_left hg5
    · rw [if_neg hl] at hc
      simp at hc
  show jsSortBy (fun a b => decide (compareHands (some a.hand) (some b.hand) ≤ 0))
      (if lp.cards.length = 1 then
         cards.filterMap (fun card => aiBeatsOption lp [card])
       else if lp.cards.length = 2 then
         (numberGroupsOf cards).filterMap (fun group =>
           if 2 ≤ group.length then aiBeatsOption lp (group.take 2) else none)
       else if lp.cards.length = 3 then
         (numberGroupsOf cards).filterMap (fun group =>
           if 3 ≤ group.length then aiBeatsOption lp (group.take 3) else none)
       else if lp.cards.length = 5 then
         (findAllFiveCardCombos cards).filterMap (fun combo => aiBeatsOption lp combo)
       else []) = []
  by_cases ht1 : lp.cards.length = 1
  · rw [if_pos ht1, h1 ht1]
    rfl
  · rw [if_neg ht1]
    by_cases ht2 : lp.cards.length = 2
    · rw [if_pos ht2, h2 ht2]
      rfl
    · rw [if_neg ht2]
      by_cases ht3 : lp.cards.length = 3
      · rw [if_pos ht3, h3 ht3]
        rfl
      · rw [if_neg ht3]
        by_cases ht5 : lp.cards.length = 5
        · rw [if_pos ht5, h5 ht5]
          rfl
        · rw [if_neg ht5]
          rfl

/-- With no candidate play, `makeStrategicDecision` passes before any
random draw is consumed. -/
theorem makeStrategicDecision_forced_pass (room : Room) (playerIndex : Nat) (gs : GSummary)
    (strategy : Strategy) (r1 r2 : ℚ)
    (h : findPossibleAiPlays (room.players.getD playerIndex defaultPlayer).cards room.lastPlay
      room.players.length = []) :
    makeStrategicDecision room playerIndex gs strategy r1 r2 = AiDecision.pass := by
  unfold makeStrategicDecision
  simp only [h]
  rfl

/-- The unfolding of `aiPlay` on a responding turn whose decision is a
pass. -/
theorem aiPlay_forced_pass_eq (r : Room) (i : Nat) (r1 r2 r3 : ℚ)
    (hgs : r.gameState = GState.playing)
    (hi : i < r.players.length)
    (hai : (r.players.getD i defaultPlayer).isAI = true)
    (hcards : ¬ (r.players.getD i defaultPlayer).cards.length = 0)
    (hne : ¬ r.lastPlay.cards.length = 0)
    (hdec : makeStrategicDecision r i (analyzeGameState r i)
        (determineStrategy r i (analyzeGameState r i)) r1 r2 = AiDecision.pass) :
    aiPlay r i r1 r2 r3 =
      aiPassEffect r i
        ((passReasonsFor (determineStrategy r i (analyzeGameState r i))).getD
          (jsFloorNat (r3 *
            (passReasonsFor (determineStrategy r i (analyzeGameState r i))).length)) "") := by
  unfold aiPlay
  rw [if_neg (fun hh => hh hgs), List.getElem?_eq_getElem hi]
  simp only [Option.isNone_some, Bool.false_eq_true, if_false, hai, Bool.not_true,
    if_neg hcards, if_neg hne]
  rw [hdec]

/-- **C10**.  On an AI turn with a non-empty pile where no combination
drawn from the AI's hand with the pile's cardinality beats the pile (as
judged by the shared `analyzeHand`/`compareHands`), the decision is a
forced pass, the total `aiPlay` raises nothing, and its effect agrees
with the human `pass` handler (which also emits no error) on the seats,
the pile, the pass counter, the current player and the game state. -/
theorem ai_forced_pass_matches_human_pass (r : Room) (i : Nat) (r1 r2 r3 : ℚ)
    (hnodup : (r.players.map Player.id).Nodup)
    (hgs : r.gameState = GState.playing)
    (hi : i < r.players.length)
    (hcur : r.currentPlayer = i)
    (hai : (r.players.getD i defaultPlayer).isAI = true)
    (hleft : (r.players.getD i defaultPlayer).hasLeft = false)
    (hcards : ¬ (r.players.getD i defaultPlayer).cards.length = 0)
    (hne : ¬ r.lastPlay.cards.length = 0)
    (H : ∀ combo : List Card, combo.Subperm (r.players.getD i defaultPlayer).cards →
      combo.length = r.lastPlay.cards.length → aiBeatsOption r.lastPlay combo = none) :
    makeStrategicDecision r i (analyzeGameState r i)
        (determineStrategy r i (analyzeGameState r i)) r1 r2 = AiDecision.pass ∧
    (passStep r ((r.players.getD i defaultPlayer).id)).2 = none ∧
    (aiPlay r i r1 r2 r3).players =
      (passStep r ((r.players.getD i defaultPlayer).id)).1.players ∧
    (aiPlay r i r1 r2 r3).lastPlay =
      (passStep r ((r.players.getD i defaultPlayer).id)).1.lastPlay ∧
    (aiPlay r i r1 r2 r3).passCount =
      (passStep r ((r.players.getD i defaultPlayer).id)).1.passCount ∧
    (aiPlay r i r1 r2 r3).currentPlayer =
      (passStep r ((r.players.getD i defaultPlayer).id)).1.currentPlayer ∧
    (aiPlay r i r1 r2 r3).gameState =
      (passStep r ((r.players.getD i defaultPlayer).id)).1.gameState := by
  subst hcur
  have hfind := jsFindIndex_id hnodup hi
  have hps := passStep_legal_eq r ((r.players.getD r.currentPlayer defaultPlayer).id)
    hgs hfind hleft hne
  have hfp := findPossibleAiPlays_eq_nil (r.players.getD r.currentPlayer defaultPlayer).cards
    r.lastPlay r.players.length H
  have hdec := makeStrategicDecision_forced_pass r r.currentPlayer
    (analyzeGameState r r.currentPlayer)
    (determineStrategy r r.currentPlayer (analyzeGameState r r.currentPlayer)) r1 r2 hfp
  have hap := aiPlay_forced_pass_eq r r.currentPlayer r1 r2 r3 hgs hi hai hcards hne hdec
  refine ⟨hdec, by rw [hps], ?_, ?_, ?_, ?_, ?_⟩
  · rw [hap, hps]
    by_cases hcond : (r.players.filter (fun p => !p.hasLeft)).length - 1 ≤ r.passCount + 1
    · simp only [aiPassEffect, passClearRoom, if_pos hcond]
    · simp only [aiPassEffect, passAdvanceRoom, if_neg hcond]
  · rw [hap, hps]
    by_cases hcond : (r.players.filter (fun p => !p.hasLeft)).length - 1 ≤ r.passCount + 1
    · simp only [aiPassEffect, passClearRoom, if_pos hcond]
    · simp only [aiPassEffect, passAdvanceRoom, if_neg hcond]
  · rw [hap, hps]
    by_cases hcond : (r.players.filter (fun p => !p.hasLeft)).length - 1 ≤ r.passCount + 1
    · simp only [aiPassEffect, passClearRoom, if_pos hcond]
    · simp only [aiPassEffect, passAdvanceRoom, if_neg hcond]
  · rw [hap, hps]
    by_cases hcond : (r.players.filter (fun p => !p.hasLeft)).length - 1 ≤ r.passCount + 1
    · simp only [aiPassEffect, passClearRoom, if_pos hcond]
    · simp only [aiPassEffect, passAdvanceRoom, if_neg hcond]
  · rw [hap, hps]
    by_cases hcond : (r.players.filter (fun p => !p.hasLeft)).length - 1 ≤ r.passCount + 1
    · simp only [aiPassEffect, passClearRoom, if_pos hcond]
    · simp only [aiPassEffect, passAdvanceRoom, if_neg hcond]

/-- **C10** — witness: the AI seat 1 holds only a cloud-3 against a pile
holding the single sun-2 (the strongest single), so its forced pass has
the same effect on seats, pile, counter, turn and game state as the
human pass of seat "ai1". -/
theorem ai_forced_pass_matches_human_pass_witness :
    (passStep w10room "ai1").2 = none ∧
    (aiPlay w10room 1 0 0 0).players = (passStep w10room "ai1").1.players ∧
    (aiPlay w10room 1 0 0 0).lastPlay = (passStep w10room "ai1").1.lastPlay ∧
    (aiPlay w10room 1 0 0 0).passCount = (passStep w10room "ai1").1.passCount ∧
    (aiPlay w10room 1 0 0 0).currentPlayer = (passStep w10room "ai1").1.currentPlayer := by
  have h := ai_forced_pass_matches_human_pass w10room 1 0 0 0 (by decide) rfl (by decide)
    rfl (by decide) (by decide) (by decide) (by decide) ?_
  · exact ⟨h.2.1, h.2.2.1, h.2.2.2.1, h.2.2.2.2.1, h.2.2.2.2.2.1⟩
  · intro combo hsub hlen
    have hperm : combo.Perm [mkCard Symbol.cloud 3] :=
      hsub.perm_of_length_le (by rw [hlen]; decide)
    rw [List.perm_singleton.mp hperm]
    rfl

end Lexio
